import Mathlib

/-!
Shallow embedding of the Commander Chess (Cờ Tư Lệnh) rule core from
`src/engine.cpp` and the backend wrapper `src/backend/engine.cpp`.

Conventions of the embedding:
* C++ `int` coordinates, ids and carrier links become `Int` (with the `-1`
  sentinel kept for "no carrier"), piece kinds and player names stay the
  source's strings ("red"/"blue", "C", "In", ..., "N").
* `PieceList` becomes `List Piece`; in-place mutation becomes explicit
  list rebuilding; `while` loops with a monotone progress argument become
  fuel recursion with a fuel that dominates the C++ loop bound.
* 64-bit unsigned arithmetic (Zobrist hashing, splitmix64) is `Nat`
  arithmetic taken `% 2^64` at each overflowing operation.
* C++ truncating integer division is `Int.tdiv`.
-/

namespace CommanderChess

/-- Piece record mirroring `struct Piece` of `src/engine.cpp` (id, player,
kind, col, row, hero, carrier_id with `-1` meaning "not carried"). -/
structure Piece where
  id : Int
  player : String
  kind : String
  col : Int
  row : Int
  hero : Bool
  carrierId : Int
deriving DecidableEq, Repr

abbrev PieceList := List Piece

/-- Source `opp`: the other side's name. -/
def opp (p : String) : String := if p == "red" then "blue" else "red"

/-- Source `player_idx`: red ↦ 0, anything else ↦ 1. -/
def playerIdx (p : String) : Nat := if p == "red" then 0 else 1

/-- Source `on_board`: columns 0–10, rows 0–11. -/
def onBoard (c r : Int) : Bool := decide (0 ≤ c ∧ c ≤ 10 ∧ 0 ≤ r ∧ r ≤ 11)

/-- Source `is_sea`: every square with column ≤ 2 (row ignored). -/
def isSea (c : Int) (_r : Int) : Bool := decide (c ≤ 2)

/-- Source `is_reef`: columns 5 and 7. -/
def isReef (c : Int) : Bool := c == 5 || c == 7

/-- Source `is_navigable`: on-board sea squares plus river rows 5–6 on
columns 2–10 excluding the reef columns. -/
def isNavigable (c r : Int) : Bool :=
  if !onBoard c r then false
  else if isSea c r then true
  else (r == 5 || r == 6) && decide (2 ≤ c) && decide (c ≤ 10) && !isReef c

/-- Source `is_hq_square`: rows 0/11, columns 4/6. -/
def isHqSquare (c r : Int) : Bool := (r == 0 || r == 11) && (c == 4 || c == 6)

/-- Source `crosses_river`: one row ≤ 5 and the other ≥ 6. -/
def crossesRiver (r1 r2 : Int) : Bool :=
  (decide (r1 ≤ 5) && decide (6 ≤ r2)) || (decide (6 ≤ r1) && decide (r2 ≤ 5))

/-- Source `piece_at`: first uncarried piece standing on the square. -/
def pieceAt (pieces : PieceList) (col row : Int) : Option Piece :=
  pieces.find? (fun p => decide (p.carrierId < 0) && p.col == col && p.row == row)

/-- Source `piece_by_id`: first piece with the given id. -/
def pieceById (pieces : PieceList) (pid : Int) : Option Piece :=
  pieces.find? (fun p => p.id == pid)

/-- Source `is_person_payload_kind`: In, M, E, C. -/
def isPersonPayloadKind (kind : String) : Bool :=
  kind == "In" || kind == "M" || kind == "E" || kind == "C"

/-- Source `is_ground_piece_kind`. -/
def isGroundPieceKind (kind : String) : Bool :=
  kind == "C" || kind == "H" || kind == "In" || kind == "M" || kind == "T" ||
  kind == "E" || kind == "A" || kind == "Aa" || kind == "Ms"

/-- Source `can_carry_kind`: which carrier kind may hold which payload kind. -/
def canCarryKind (carrierKind carriedKind : String) : Bool :=
  if carriedKind == "H" then false
  else if carriedKind == "C" then
    carrierKind == "T" || carrierKind == "Af" || carrierKind == "N"
  else if carrierKind == "N" then
    carriedKind == "Af" || carriedKind == "T" || isPersonPayloadKind carriedKind
  else if carrierKind == "T" then
    isPersonPayloadKind carriedKind
  else if carrierKind == "Af" then
    carriedKind == "In" || carriedKind == "M" || carriedKind == "E" || carriedKind == "T"
  else if carrierKind == "E" then
    carriedKind == "Aa" || carriedKind == "A" || carriedKind == "Ms"
  else false

/-- Cargo census used by both capacity checks: (aircraft, tanks, persons,
other) among the direct children of `carrierId`, mirroring the `bump` lambda. -/
def cargoBump (kind : String) (acc : Nat × Nat × Nat × Nat) : Nat × Nat × Nat × Nat :=
  if kind == "Af" then (acc.1 + 1, acc.2.1, acc.2.2.1, acc.2.2.2)
  else if kind == "T" then (acc.1, acc.2.1 + 1, acc.2.2.1, acc.2.2.2)
  else if isPersonPayloadKind kind then (acc.1, acc.2.1, acc.2.2.1 + 1, acc.2.2.2)
  else (acc.1, acc.2.1, acc.2.2.1, acc.2.2.2 + 1)

def cargoCounts (pieces : PieceList) (carrierId : Int) : Nat × Nat × Nat × Nat :=
  pieces.foldl (fun acc p => if p.carrierId == carrierId then cargoBump p.kind acc else acc)
    (0, 0, 0, 0)

/-- Shared capacity table: Navy combos, Air-Force one tank or one person,
Tank one person; other kinds unconstrained (matches both C++ checkers'
switch bodies applied to the counts `(af, tank, person, other)`). -/
def capacityOk (carrierKind : String) (counts : Nat × Nat × Nat × Nat) : Bool :=
  let af := counts.1
  let tank := counts.2.1
  let person := counts.2.2.1
  let other := counts.2.2.2
  if carrierKind == "N" then
    if other > 0 then false
    else if af == 0 && tank ≤ 2 && person == 0 then true
    else if tank == 0 && af ≤ 2 && person == 0 then true
    else if af == 1 && tank == 1 && person == 0 then true
    else if af == 1 && tank == 0 && person == 1 then true
    else if af == 0 && tank == 0 && person ≤ 1 then true
    else false
  else if carrierKind == "Af" then
    if af > 0 || other > 0 then false else tank + person ≤ 1
  else if carrierKind == "T" then
    if af > 0 || tank > 0 || other > 0 then false else person ≤ 1
  else true

/-- Source `carrier_capacity_allows_add`: census of current direct cargo plus
the incoming kind, then the capacity table. -/
def carrierCapacityAllowsAdd (pieces : PieceList) (carrierId : Int)
    (carrierKind addKind : String) : Bool :=
  capacityOk carrierKind (cargoBump addKind (cargoCounts pieces carrierId))

/-- Source `carrier_capacity_valid`: census of current direct cargo only. -/
def carrierCapacityValid (pieces : PieceList) (carrierId : Int)
    (carrierKind : String) : Bool :=
  capacityOk carrierKind (cargoCounts pieces carrierId)

/-- Source `can_stack_together`: same side, different piece, kind pairing
allowed, capacity allows the addition. -/
def canStackTogether (pieces : PieceList) (a b : Piece) : Bool :=
  if a.player != b.player || a.id == b.id then false
  else if !canCarryKind a.kind b.kind then false
  else carrierCapacityAllowsAdd pieces a.id a.kind b.kind

/-- Source `collect_carried_ids`: transitive closure of the carrier links
below `carrierId`. The C++ recursion breaks cycles through the id set; the
fuel (one unit per recursion level) dominates any chain in a list of
`pieces.length` pieces. -/
def collectCarriedIds (pieces : PieceList) : Nat → Int → List Int → List Int
  | 0, _, acc => acc
  | fuel + 1, carrierId, acc =>
    pieces.foldl
      (fun acc p =>
        if p.carrierId == carrierId then
          if acc.contains p.id then acc
          else collectCarriedIds pieces fuel p.id (acc ++ [p.id])
        else acc)
      acc

/-- Source `remove_piece_with_carried`: erase the root id plus every
transitively carried id. -/
def removePieceWithCarried (pieces : PieceList) (rootId : Int) : PieceList :=
  let ids := collectCarriedIds pieces pieces.length rootId [rootId]
  pieces.filter (fun p => !ids.contains p.id)

/-- Source `sync_carried_positions`: push the carrier's square down to all
direct children, then recurse into each child (the C++ interleaves the
per-child update and recursion inside one traversal; for the forests the
engine builds the result is the same). -/
def syncCarriedPositions (pieces : PieceList) : Nat → Int → PieceList
  | 0, _ => pieces
  | fuel + 1, carrierId =>
    match pieceById pieces carrierId with
    | none => pieces
    | some carrier =>
      let updated := pieces.map (fun p =>
        if p.carrierId == carrierId then { p with col := carrier.col, row := carrier.row } else p)
      let childIds := (pieces.filter (fun p => p.carrierId == carrierId)).map (·.id)
      childIds.foldl (fun acc cid => syncCarriedPositions acc fuel cid) updated

/-- Source `is_carried_by_engineer`: walk the carrier chain looking for an
Engineer; fuel bounds the chain walk exactly like the C++ loop terminates
on acyclic links. -/
def isCarriedByEngineerGo (pieces : PieceList) : Nat → Int → Bool
  | 0, _ => false
  | fuel + 1, cid =>
    if cid < 0 then false
    else
      match pieceById pieces cid with
      | none => false
      | some c => if c.kind == "E" then true else isCarriedByEngineerGo pieces fuel c.carrierId

def isCarriedByEngineer (p : Piece) (pieces : PieceList) : Bool :=
  isCarriedByEngineerGo pieces (pieces.length + 1) p.carrierId

/-- Source `in_aa_range`: any enemy Aa/N within Chebyshev distance 1 or Ms
within distance 2 of the square (all pieces count, carried included). -/
def inAaRange (pieces : PieceList) (col row : Int) (player : String) : Bool :=
  pieces.any (fun p =>
    if p.player == player then false
    else
      let d := max (p.col - col).natAbs (p.row - row).natAbs
      (p.kind == "Aa" && d ≤ 1) || (p.kind == "Ms" && d ≤ 2) || (p.kind == "N" && d ≤ 1))

end CommanderChess

namespace CommanderChess

/-! Move generation (`get_move_mask_bitboard` and friends). The C++ builds a
132-bit board mask through `add_sq`; the embedding builds the same square
set as a list of `(col, row)` pairs, with `add_sq`'s HQ/on-board gate kept:
on-board-ness is established before every insertion site, and the HQ gate
for non-Commander movers is applied as a final filter over the branch's
squares (insertion-time gating and post-filtering produce the same set
because the loop control never depends on whether `add_sq` inserted). -/

/-- Ranges and diagonal flags of `PIECE_DEF` (name/flies/domain fields are
not consulted by the move generator). -/
def pieceDefRange (kind : String) : Option (Nat × Bool) :=
  if kind == "C" then some (10, false)
  else if kind == "H" then some (0, false)
  else if kind == "In" then some (1, false)
  else if kind == "M" then some (1, true)
  else if kind == "T" then some (2, false)
  else if kind == "E" then some (1, false)
  else if kind == "A" then some (3, false)
  else if kind == "Aa" then some (1, false)
  else if kind == "Ms" then some (2, false)
  else if kind == "Af" then some (4, true)
  else if kind == "N" then some (4, true)
  else none

/-- Occupancy lookup of `MoveGenContext.sq_to_piece`: the last uncarried
on-board piece written to the square (the build loop runs in list order and
overwrites). -/
def ctxPieceAt (pieces : PieceList) (c r : Int) : Option Piece :=
  pieces.foldl
    (fun acc p =>
      if onBoard p.col p.row && decide (p.carrierId < 0) && p.col == c && p.row == r
      then some p else acc)
    none

/-- Commander squares of `MoveGenContext.commander_sq` (uncarried, on
board; last written wins). -/
def ctxCommanderSq (pieces : PieceList) (pl : Nat) : Option (Int × Int) :=
  pieces.foldl
    (fun acc p =>
      if onBoard p.col p.row && decide (p.carrierId < 0) && p.kind == "C" &&
         playerIdx p.player == pl
      then some (p.col, p.row) else acc)
    none

/-- Anti-air coverage of `MoveGenContext.aa_cover_by_player`: squares within
Chebyshev radius 1 of an on-board Aa/N or radius 2 of an on-board Ms of the
given side (carried pieces included, exactly as in the build loop). -/
def aaCover (pieces : PieceList) (pl : Nat) (c r : Int) : Bool :=
  pieces.any (fun p =>
    if !onBoard p.col p.row then false
    else
      let radius : Nat :=
        if p.kind == "Aa" || p.kind == "N" then 1
        else if p.kind == "Ms" then 2 else 0
      if radius == 0 then false
      else if playerIdx p.player != pl then false
      else max (p.col - c).natAbs (p.row - r).natAbs ≤ radius)

def ortho4 : List (Int × Int) := [(0,1),(0,-1),(1,0),(-1,0)]
def diag4 : List (Int × Int) := [(1,1),(1,-1),(-1,1),(-1,-1)]
def dirs8 : List (Int × Int) := [(0,1),(0,-1),(1,0),(-1,0),(1,1),(1,-1),(-1,1),(-1,-1)]

/-- Strictly-between integer range, used by the Commander exposure scan. -/
def intsBetween (a b : Int) : List Int :=
  let lo := min a b
  let hi := max a b
  (List.range (hi - lo - 1).toNat).map (fun i => lo + 1 + (i : Int))

/-- Commander rook ray: slide up to the range, captures only at step 1. -/
def cRay (pieces : PieceList) (piece : Piece) (dx dy : Int) :
    Nat → Nat → List (Int × Int)
  | 0, _ => []
  | rem + 1, s =>
    let nc := piece.col + dx * (s : Int)
    let nr := piece.row + dy * (s : Int)
    if !onBoard nc nr then []
    else
      match ctxPieceAt pieces nc nr with
      | some t =>
        if playerIdx t.player != playerIdx piece.player && s == 1 then [(nc, nr)] else []
      | none => (nc, nr) :: cRay pieces piece dx dy rem (s + 1)

/-- Exposure test of the Commander branch: the destination shares the enemy
Commander's file (checked first) or rank, with no piece other than the
moving Commander strictly between. -/
def cExposed (pieces : PieceList) (piece : Piece) (oc orow : Int)
    (nc nr : Int) : Bool :=
  if nc == oc then
    !(intsBetween nr orow).any (fun rr =>
      match ctxPieceAt pieces nc rr with
      | some t => t.id != piece.id
      | none => false)
  else if nr == orow then
    !(intsBetween nc oc).any (fun cc =>
      match ctxPieceAt pieces cc nr with
      | some t => t.id != piece.id
      | none => false)
  else false

/-- Navy movement ray (orthogonal or diagonal): navigable water only,
enemy stops the ray with a capture, friendly pieces never block (stackable
friends are also destinations). -/
def navyMoveRay (pieces : PieceList) (piece : Piece) (dx dy : Int) :
    Nat → Nat → List (Int × Int)
  | 0, _ => []
  | rem + 1, s =>
    let nc := piece.col + dx * (s : Int)
    let nr := piece.row + dy * (s : Int)
    if !onBoard nc nr || !isNavigable nc nr then []
    else
      match ctxPieceAt pieces nc nr with
      | some t =>
        if playerIdx t.player != playerIdx piece.player then [(nc, nr)]
        else
          (if canStackTogether pieces piece t then [(nc, nr)] else []) ++
            navyMoveRay pieces piece dx dy rem (s + 1)
      | none => (nc, nr) :: navyMoveRay pieces piece dx dy rem (s + 1)

/-- Navy fire ray: scan empty squares orthogonally; at the first piece, an
enemy Navy is hit at any range and an enemy ground piece at range ≤ 3. -/
def navyFireRay (pieces : PieceList) (piece : Piece) (dx dy : Int) :
    Nat → Nat → List (Int × Int)
  | 0, _ => []
  | rem + 1, s =>
    let nc := piece.col + dx * (s : Int)
    let nr := piece.row + dy * (s : Int)
    if !onBoard nc nr then []
    else
      match ctxPieceAt pieces nc nr with
      | some t =>
        if playerIdx t.player != playerIdx piece.player &&
           (t.kind == "N" || (isGroundPieceKind t.kind && s ≤ 3))
        then [(nc, nr)] else []
      | none => navyFireRay pieces piece dx dy rem (s + 1)

/-- Flight interdiction scan of the Air-Force branch: some strictly
intermediate square of the flight is off board or inside enemy AA cover
(heroes ignore AA). -/
def pathHitsEnemyAa (pieces : PieceList) (enemyIdx : Nat) (hero : Bool)
    (col row dx dy : Int) (s : Nat) : Bool :=
  if hero then false
  else
    (List.range (s - 1)).any (fun i =>
      let pc := col + dx * ((i : Int) + 1)
      let pr := row + dy * ((i : Int) + 1)
      !onBoard pc pr || aaCover pieces enemyIdx pc pr)

/-- Air-Force ray: flies up to range 4(+1), AA-covered flight steps are
skipped (`continue`), sea squares admit only enemy-Navy captures or safe
friendly stacking, land squares stop the ray at the first piece. -/
def afRay (pieces : PieceList) (piece : Piece) (enemyIdx : Nat) (dx dy : Int) :
    Nat → Nat → List (Int × Int)
  | 0, _ => []
  | rem + 1, s =>
    let nc := piece.col + dx * (s : Int)
    let nr := piece.row + dy * (s : Int)
    if !onBoard nc nr then []
    else if pathHitsEnemyAa pieces enemyIdx piece.hero piece.col piece.row dx dy s then
      afRay pieces piece enemyIdx dx dy rem (s + 1)
    else
      let destInAa := !piece.hero && aaCover pieces enemyIdx nc nr
      if isSea nc nr then
        match ctxPieceAt pieces nc nr with
        | some t =>
          if playerIdx t.player != playerIdx piece.player && t.kind == "N" then [(nc, nr)]
          else if playerIdx t.player == playerIdx piece.player &&
                  canStackTogether pieces piece t && !destInAa then [(nc, nr)]
          else []
        | none => afRay pieces piece enemyIdx dx dy rem (s + 1)
      else
        match ctxPieceAt pieces nc nr with
        | some t =>
          if playerIdx t.player != playerIdx piece.player then [(nc, nr)]
          else if canStackTogether pieces piece t && !destInAa then [(nc, nr)]
          else []
        | none =>
          (if !destInAa then [(nc, nr)] else []) ++
            afRay pieces piece enemyIdx dx dy rem (s + 1)

/-- Artillery movement ray: blocked by sea, river crossing allowed only from
a reef column or under an engineer ferry (a crossing step may still capture
an enemy standing there), stops at the first piece. -/
def aRay (pieces : PieceList) (piece : Piece) (engCarried : Bool) (dx dy : Int) :
    Nat → Nat → List (Int × Int)
  | 0, _ => []
  | rem + 1, s =>
    let nc := piece.col + dx * (s : Int)
    let nr := piece.row + dy * (s : Int)
    if !onBoard nc nr then []
    else if isSea nc nr then []
    else
      let pi := ctxPieceAt pieces nc nr
      if crossesRiver piece.row nr && !isReef piece.col && !engCarried then
        match pi with
        | some t => if playerIdx t.player != playerIdx piece.player then [(nc, nr)] else []
        | none => []
      else
        match pi with
        | some t =>
          if playerIdx t.player != playerIdx piece.player then [(nc, nr)]
          else if canStackTogether pieces piece t then [(nc, nr)]
          else []
        | none => (nc, nr) :: aRay pieces piece engCarried dx dy rem (s + 1)

/-- Artillery fire ray: orthogonal scan up to 3; the first piece found is
hit only if it is an enemy on a sea square. -/
def aFireRay (pieces : PieceList) (piece : Piece) (dx dy : Int) :
    Nat → Nat → List (Int × Int)
  | 0, _ => []
  | rem + 1, s =>
    let nc := piece.col + dx * (s : Int)
    let nr := piece.row + dy * (s : Int)
    if !onBoard nc nr then []
    else
      match ctxPieceAt pieces nc nr with
      | some t =>
        if playerIdx t.player != playerIdx piece.player && isSea nc nr
        then [(nc, nr)] else []
      | none => aFireRay pieces piece dx dy rem (s + 1)

/-- Anti-Air / Missile movement ray: orthogonal, blocked by sea, river rule
as for artillery, stops at the first piece. -/
def aaMsRay (pieces : PieceList) (piece : Piece) (engCarried : Bool) (dx dy : Int) :
    Nat → Nat → List (Int × Int)
  | 0, _ => []
  | rem + 1, s =>
    let nc := piece.col + dx * (s : Int)
    let nr := piece.row + dy * (s : Int)
    if !onBoard nc nr then []
    else if isSea nc nr then []
    else if crossesRiver piece.row nr && !isReef piece.col && !engCarried then []
    else
      match ctxPieceAt pieces nc nr with
      | some t =>
        if playerIdx t.player != playerIdx piece.player then [(nc, nr)]
        else if canStackTogether pieces piece t then [(nc, nr)]
        else []
      | none => (nc, nr) :: aaMsRay pieces piece engCarried dx dy rem (s + 1)

/-- Missile fire ring: pure orthogonal offsets up to 2 or adjacent
diagonals, hitting enemy non-Navy targets off sea squares. -/
def msFireRing (pieces : PieceList) (piece : Piece) : List (Int × Int) :=
  ([-2,-1,0,1,2] : List Int).foldr (fun dc acc =>
    (([-2,-1,0,1,2] : List Int).foldr (fun dr acc2 =>
      (if dc == 0 && dr == 0 then []
       else
        let isOrthogonal := dc == 0 || dr == 0
        let isAdjDiag := dc.natAbs == 1 && dr.natAbs == 1
        if !isOrthogonal && !isAdjDiag then []
        else
          let nc := piece.col + dc
          let nr := piece.row + dr
          if !onBoard nc nr then []
          else
            match ctxPieceAt pieces nc nr with
            | some tp =>
              if playerIdx tp.player != playerIdx piece.player && tp.kind != "N" &&
                 !isSea nc nr then [(nc, nr)] else []
            | none => []) ++ acc2) []) ++ acc) []

/-- Engineer step: one orthogonal square, never into sea. -/
def eSteps (pieces : PieceList) (piece : Piece) : List (Int × Int) :=
  ortho4.foldr (fun d acc =>
    (let nc := piece.col + d.1
     let nr := piece.row + d.2
     if !onBoard nc nr || isSea nc nr then []
     else
       match ctxPieceAt pieces nc nr with
       | some t =>
         if playerIdx t.player != playerIdx piece.player then [(nc, nr)]
         else if canStackTogether pieces piece t then [(nc, nr)]
         else []
       | none => [(nc, nr)]) ++ acc) []

/-- Infantry / Militia / Tank / heroic-HQ slide: blocked by sea, stops at
the first piece with capture or stacking. -/
def genericRay (pieces : PieceList) (piece : Piece) (dx dy : Int) :
    Nat → Nat → List (Int × Int)
  | 0, _ => []
  | rem + 1, s =>
    let nc := piece.col + dx * (s : Int)
    let nr := piece.row + dy * (s : Int)
    if !onBoard nc nr || isSea nc nr then []
    else
      match ctxPieceAt pieces nc nr with
      | some t =>
        if playerIdx t.player != playerIdx piece.player then [(nc, nr)]
        else if canStackTogether pieces piece t then [(nc, nr)]
        else []
      | none => (nc, nr) :: genericRay pieces piece dx dy rem (s + 1)

/-- Tank sea-fire ray: scan through empty squares; the first piece is hit
only if it is an enemy on a sea square (stay-and-fire destination). -/
def tankFireRay (pieces : PieceList) (piece : Piece) (dx dy : Int) :
    Nat → Nat → List (Int × Int)
  | 0, _ => []
  | rem + 1, s =>
    let nc := piece.col + dx * (s : Int)
    let nr := piece.row + dy * (s : Int)
    if !onBoard nc nr then []
    else
      match ctxPieceAt pieces nc nr with
      | some t =>
        if isSea nc nr && playerIdx t.player != playerIdx piece.player
        then [(nc, nr)] else []
      | none => tankFireRay pieces piece dx dy rem (s + 1)

def raysFor (dirs : List (Int × Int))
    (f : Int → Int → List (Int × Int)) : List (Int × Int) :=
  dirs.foldr (fun d acc => f d.1 d.2 ++ acc) []

/-- The HQ-exclusion gate of `add_sq`: non-Commander movers never receive
an HQ square. -/
def hqGate (kind : String) (l : List (Int × Int)) : List (Int × Int) :=
  l.filter (fun sq => kind == "C" || !isHqSquare sq.1 sq.2)

/-- Square-set holding the destinations of `get_move_mask_bitboard`. -/
def getMoveMask (piece : Piece) (pieces : PieceList) : List (Int × Int) :=
  let k := piece.kind
  if !onBoard piece.col piece.row then []
  else if k == "H" && !piece.hero then []
  else
    let rngDiag : Option (Nat × Bool) :=
      if k == "H" then some (2, true)
      else match pieceDefRange k with
        | none => none
        | some rd => some (rd.1 + (if piece.hero then 1 else 0), rd.2 || piece.hero)
    match rngDiag with
    | none => []
    | some (rng, useDiag) =>
      let me := playerIdx piece.player
      let enemy := 1 - me
      if k == "C" then
        let res := hqGate k (raysFor ortho4 (fun dx dy => cRay pieces piece dx dy rng 1))
        match ctxCommanderSq pieces enemy with
        | none => res
        | some (oc, orow) => res.filter (fun sq => cExposed pieces piece oc orow sq.1 sq.2)
      else if k == "N" then
        hqGate k
          (raysFor ortho4 (fun dx dy => navyMoveRay pieces piece dx dy rng 1) ++
           raysFor diag4 (fun dx dy => navyMoveRay pieces piece dx dy rng 1) ++
           raysFor ortho4 (fun dx dy => navyFireRay pieces piece dx dy rng 1))
      else if k == "Af" then
        let dirs := if useDiag then dirs8 else ortho4
        hqGate k (raysFor dirs (fun dx dy => afRay pieces piece enemy dx dy rng 1))
      else if k == "A" then
        let dirs := if useDiag then dirs8 else ortho4
        let engCarried := isCarriedByEngineer piece pieces
        hqGate k
          (raysFor dirs (fun dx dy => aRay pieces piece engCarried dx dy rng 1) ++
           raysFor ortho4 (fun dx dy => aFireRay pieces piece dx dy 3 1))
      else if k == "Aa" || k == "Ms" then
        let engCarried := isCarriedByEngineer piece pieces
        let moves := raysFor ortho4 (fun dx dy => aaMsRay pieces piece engCarried dx dy rng 1)
        if k == "Ms" then hqGate k (moves ++ msFireRing pieces piece)
        else hqGate k moves
      else if k == "E" then
        hqGate k (eSteps pieces piece)
      else
        let dirs := if useDiag then dirs8 else ortho4
        let base := raysFor dirs (fun dx dy => genericRay pieces piece dx dy rng 1)
        let fire :=
          if k == "T" then raysFor ortho4 (fun dx dy => tankFireRay pieces piece dx dy rng 1)
          else []
        hqGate k (base ++ fire)

/-- Board squares in the `(col, row)` order of `bb_to_moves_sorted`. -/
def boardSquaresSorted : List (Int × Int) :=
  (List.range 11).foldr (fun c acc =>
    ((List.range 12).map (fun r => ((c : Int), (r : Int)))) ++ acc) []

/-- Source `get_moves`: the mask squares, sorted by `(col, row)` and
deduplicated exactly as the bitboard traversal emits them. -/
def getMoves (piece : Piece) (pieces : PieceList) : List (Int × Int) :=
  boardSquaresSorted.filter (fun sq => (getMoveMask piece pieces).contains sq)

/-- Source `MoveTriple`. -/
structure MoveTriple where
  pid : Int
  dc : Int
  dr : Int
deriving DecidableEq, Repr

/-- Source `all_moves_for`: every piece of the side contributes its whole
generated move list. -/
def allMovesFor (pieces : PieceList) (player : String) : List MoveTriple :=
  pieces.foldr (fun p acc =>
    (if p.player == player then
      (getMoves p pieces).map (fun m => MoveTriple.mk p.id m.1 m.2)
     else []) ++ acc) []

/-- Source `has_legal_destination`. -/
def hasLegalDestination (piece : Piece) (pieces : PieceList) (dc dr : Int) : Bool :=
  (getMoves piece pieces).any (fun m => m.1 == dc && m.2 == dr)

end CommanderChess

namespace CommanderChess

/-! Move application (`apply_move_impl`), heroic promotion, win check,
state validation and the game-level history helpers. -/

/-- Index-driven scan of `promote_heroes_from_checks`'s first loop: each
non-hero on-board piece that can reach the first-listed enemy Commander's
square becomes a hero; the scan continues over the updated list. -/
def promoteCheckScan (pieces : PieceList) : Nat → Nat → Bool → PieceList × Bool
  | 0, _, changed => (pieces, changed)
  | n + 1, i, changed =>
    match pieces[i]? with
    | none => (pieces, changed)
    | some p =>
      if p.hero || !onBoard p.col p.row then promoteCheckScan pieces n (i + 1) changed
      else
        match pieces.find? (fun q => q.player == opp p.player && q.kind == "C") with
        | none => promoteCheckScan pieces n (i + 1) changed
        | some enemyCmd =>
          if (getMoves p pieces).any (fun m => m.1 == enemyCmd.col && m.2 == enemyCmd.row) then
            promoteCheckScan (pieces.set i { p with hero := true }) n (i + 1) true
          else promoteCheckScan pieces n (i + 1) changed

/-- Eligible indices of the last-protector rule: on-board pieces of the
side that are neither Commander nor Headquarters. -/
def eligibleIdxs (pieces : PieceList) (side : String) : List Nat :=
  (List.range pieces.length).filter (fun i =>
    match pieces[i]? with
    | some p => p.player == side && onBoard p.col p.row && p.kind != "C" && p.kind != "H"
    | none => false)

/-- Last-protector rule: the single remaining eligible piece of a side
becomes heroic. -/
def lastProtector (pieces : PieceList) (side : String) : PieceList × Bool :=
  match eligibleIdxs pieces side with
  | [i] =>
    match pieces[i]? with
    | some p => if !p.hero then (pieces.set i { p with hero := true }, true) else (pieces, false)
    | none => (pieces, false)
  | _ => (pieces, false)

/-- One body of the `while (changed)` loop of `promote_heroes_from_checks`. -/
def promotePass (pieces : PieceList) : PieceList × Bool :=
  let r1 := promoteCheckScan pieces pieces.length 0 false
  let r2 := lastProtector r1.1 "red"
  let r3 := lastProtector r2.1 "blue"
  (r3.1, r1.2 || r2.2 || r3.2)

/-- Fixpoint loop of `promote_heroes_from_checks`; every changed pass turns
at least one hero flag on, so `pieces.length + 1` passes dominate the C++
loop. -/
def promoteHeroesGo : Nat → PieceList → PieceList
  | 0, pieces => pieces
  | fuel + 1, pieces =>
    let r := promotePass pieces
    if r.2 then promoteHeroesGo fuel r.1 else r.1

def promoteHeroesFromChecks (pieces : PieceList) : PieceList :=
  promoteHeroesGo (pieces.length + 1) pieces

/-- Source `square_capturable_by_player`. -/
def squareCapturableByPlayer (pieces : PieceList) (col row : Int)
    (byPlayer : String) : Bool :=
  pieces.any (fun p =>
    p.player == byPlayer && onBoard p.col p.row &&
    (getMoves p pieces).any (fun m => m.1 == col && m.2 == row))

/-- Source `apply_move_impl`: carrier split, friendly stacking, capture with
Navy/Tank stay-and-fire, Air-Force kamikaze and bombardment return, then
heroic promotion. -/
def applyMoveImpl (pieces : PieceList) (pieceId : Int) (dc dr : Int)
    (player : String) : PieceList :=
  match pieceById pieces pieceId with
  | none => pieces
  | some piece0 =>
    if piece0.player != player then pieces
    else if !onBoard dc dr then pieces
    else
      let srcCol := piece0.col
      let srcRow := piece0.row
      let np1 :=
        if decide (0 ≤ piece0.carrierId) then
          pieces.map (fun p => if p.id == pieceId then { p with carrierId := -1 } else p)
        else pieces
      let mover := if decide (0 ≤ piece0.carrierId) then { piece0 with carrierId := -1 } else piece0
      match pieceAt np1 dc dr with
      | some target =>
        if target.player == player then
          if canStackTogether np1 mover target then
            let np2 := np1.map (fun p =>
              if p.id == pieceId then { p with col := dc, row := dr }
              else if p.id == target.id then { p with carrierId := pieceId, col := dc, row := dr }
              else p)
            let np3 := syncCarriedPositions np2 np2.length target.id
            let np4 := syncCarriedPositions np3 np3.length pieceId
            promoteHeroesFromChecks np4
          else pieces
        else
          let navyStays :=
            (mover.kind == "N" && !isNavigable dc dr) || (mover.kind == "T" && isSea dc dr)
          let capturedBefore := target
          let np2 := removePieceWithCarried np1 target.id
          match pieceById np2 pieceId with
          | none => np2
          | some piece2 =>
            if piece2.kind == "Af" && !piece2.hero && inAaRange np2 dc dr player then
              promoteHeroesFromChecks (removePieceWithCarried np2 pieceId)
            else
              let np3 :=
                if !navyStays then
                  syncCarriedPositions
                    (np2.map (fun p => if p.id == pieceId then { p with col := dc, row := dr } else p))
                    np2.length pieceId
                else np2
              let np4 :=
                if piece2.kind == "Af" && capturedBefore.kind != "N" &&
                   capturedBefore.kind != "Af" && !navyStays then
                  if squareCapturableByPlayer np3 dc dr (opp player) then
                    syncCarriedPositions
                      (np3.map (fun p =>
                        if p.id == pieceId then { p with col := srcCol, row := srcRow } else p))
                      np3.length pieceId
                  else np3
                else np3
              promoteHeroesFromChecks np4
      | none =>
        let np2 := np1.map (fun p => if p.id == pieceId then { p with col := dc, row := dr } else p)
        let np3 := syncCarriedPositions np2 np2.length pieceId
        promoteHeroesFromChecks np3

/-- Source `apply_move` (the checked variant used by GUI/backend): verifies
ownership and legality before delegating to `apply_move_impl`. -/
def applyMoveChecked (pieces : PieceList) (pieceId : Int) (dc dr : Int)
    (player : String) : PieceList :=
  match pieceById pieces pieceId with
  | none => pieces
  | some piece =>
    if piece.player != player then pieces
    else if !onBoard dc dr then pieces
    else if !hasLegalDestination piece pieces dc dr then pieces
    else applyMoveImpl pieces pieceId dc dr player

/-- Source `GameMode` (the `g_game_mode` global becomes a parameter). -/
inductive GameMode where
  | fullBattle
  | marineBattle
  | airBattle
  | landBattle
deriving DecidableEq, Repr

/-- On-board piece count of a kind for the opponent of `last`. -/
def enemyKindCount (pieces : PieceList) (op : String) (kind : String) : Nat :=
  (pieces.filter (fun p => p.player == op && onBoard p.col p.row && p.kind == kind)).length

/-- Source `check_win`: mode-specific terminal test, reported as the
winner string (empty when the game goes on). -/
def checkWin (mode : GameMode) (pieces : PieceList) (last : String) : String :=
  let op := opp last
  let commanderCaptured := enemyKindCount pieces op "C" == 0
  match mode with
  | .marineBattle =>
    if commanderCaptured then last ++ " wins — Commander captured!"
    else if enemyKindCount pieces op "N" == 0 then last ++ " wins — Naval division destroyed!"
    else ""
  | .airBattle =>
    if commanderCaptured then last ++ " wins — Commander captured!"
    else if enemyKindCount pieces op "Af" == 0 then last ++ " wins — Air Force destroyed!"
    else ""
  | .landBattle =>
    if commanderCaptured then last ++ " wins — Commander captured!"
    else if enemyKindCount pieces op "T" == 0 && enemyKindCount pieces op "In" == 0 &&
            enemyKindCount pieces op "A" == 0 then
      last ++ " wins — Land division destroyed!"
    else ""
  | .fullBattle =>
    if commanderCaptured then last ++ " wins — Commander captured!" else ""

/-- First pass of `validate_state`: bounds, unique ids, unique squares for
uncarried pieces. -/
def vsPass1 : PieceList → List Int → List (Int × Int) → Bool
  | [], _, _ => true
  | p :: rest, ids, occ =>
    if !onBoard p.col p.row then false
    else if ids.contains p.id then false
    else if decide (p.carrierId < 0) && occ.contains (p.col, p.row) then false
    else vsPass1 rest (p.id :: ids)
      (if decide (p.carrierId < 0) then (p.col, p.row) :: occ else occ)

/-- Carrier-link check of `validate_state`'s second pass. -/
def vsLinkOk (pieces : PieceList) (p : Piece) : Bool :=
  if decide (p.carrierId < 0) then true
  else if p.carrierId == p.id then false
  else
    match pieceById pieces p.carrierId with
    | none => false
    | some c =>
      c.player == p.player && canCarryKind c.kind p.kind &&
      p.col == c.col && p.row == c.row

/-- Source `validate_state`. -/
def validateState (pieces : PieceList) : Bool :=
  vsPass1 pieces [] [] && pieces.all (vsLinkOk pieces) &&
  pieces.all (fun p => carrierCapacityValid pieces p.id p.kind)

/-- Source `validate_state_for_sim`: `validate_state`'s checks plus the
commander-count invariant (one Commander per side, or a legal terminal
commander-capture state). -/
def validateStateForSim (mode : GameMode) (pieces : PieceList)
    (lastMover : String) : Bool :=
  if !(vsPass1 pieces [] []) then false
  else if !(pieces.all (vsLinkOk pieces)) then false
  else if !(pieces.all (fun p => carrierCapacityValid pieces p.id p.kind)) then false
  else
    let redCmd := (pieces.filter (fun p => p.kind == "C" && p.player == "red")).length
    let blueCmd := (pieces.filter (fun p => p.kind == "C" && p.player == "blue")).length
    if redCmd == 1 && blueCmd == 1 then true
    else if ((redCmd == 0 && blueCmd == 1) || (redCmd == 1 && blueCmd == 0)) &&
            checkWin mode pieces lastMover != "" then true
    else false

/-- Source `push_position_history`: append, then keep only the newest 200. -/
def pushPositionHistory (history : List Nat) (hash : Nat) : List Nat :=
  let h := history ++ [hash]
  if h.length > 200 then h.drop (h.length - 200) else h

/-- Counting loop of `is_threefold_repetition` with its early exit at 3. -/
def isThreefoldGo : List Nat → Nat → Nat → Bool
  | [], _, _ => false
  | h :: rest, hash, cnt =>
    if h == hash then
      if cnt + 1 ≥ 3 then true else isThreefoldGo rest hash (cnt + 1)
    else isThreefoldGo rest hash cnt

/-- Source `is_threefold_repetition`. -/
def isThreefoldRepetition (history : List Nat) (hash : Nat) : Bool :=
  isThreefoldGo history hash 0

/-- Source `make_initial_pieces`: the official 38-piece setup, ids in
creation order. -/
def makeInitialPieces : PieceList :=
  [⟨0, "red", "C", 6, 0, false, -1⟩,
   ⟨1, "red", "N", 1, 1, false, -1⟩,
   ⟨2, "red", "Af", 4, 1, false, -1⟩, ⟨3, "red", "H", 5, 1, false, -1⟩,
   ⟨4, "red", "H", 7, 1, false, -1⟩, ⟨5, "red", "Af", 8, 1, false, -1⟩,
   ⟨6, "red", "A", 3, 2, false, -1⟩, ⟨7, "red", "Ms", 6, 2, false, -1⟩,
   ⟨8, "red", "A", 9, 2, false, -1⟩,
   ⟨9, "red", "N", 2, 3, false, -1⟩, ⟨10, "red", "Aa", 4, 3, false, -1⟩,
   ⟨11, "red", "T", 5, 3, false, -1⟩, ⟨12, "red", "T", 7, 3, false, -1⟩,
   ⟨13, "red", "Aa", 8, 3, false, -1⟩,
   ⟨14, "red", "In", 2, 4, false, -1⟩, ⟨15, "red", "E", 3, 4, false, -1⟩,
   ⟨16, "red", "M", 6, 4, false, -1⟩, ⟨17, "red", "E", 9, 4, false, -1⟩,
   ⟨18, "red", "In", 10, 4, false, -1⟩,
   ⟨19, "blue", "In", 10, 7, false, -1⟩, ⟨20, "blue", "E", 9, 7, false, -1⟩,
   ⟨21, "blue", "M", 6, 7, false, -1⟩, ⟨22, "blue", "E", 3, 7, false, -1⟩,
   ⟨23, "blue", "In", 2, 7, false, -1⟩,
   ⟨24, "blue", "Aa", 8, 8, false, -1⟩, ⟨25, "blue", "T", 7, 8, false, -1⟩,
   ⟨26, "blue", "T", 5, 8, false, -1⟩, ⟨27, "blue", "Aa", 4, 8, false, -1⟩,
   ⟨28, "blue", "N", 2, 8, false, -1⟩,
   ⟨29, "blue", "A", 9, 9, false, -1⟩, ⟨30, "blue", "Ms", 6, 9, false, -1⟩,
   ⟨31, "blue", "A", 3, 9, false, -1⟩,
   ⟨32, "blue", "Af", 8, 10, false, -1⟩, ⟨33, "blue", "H", 7, 10, false, -1⟩,
   ⟨34, "blue", "H", 5, 10, false, -1⟩, ⟨35, "blue", "Af", 4, 10, false, -1⟩,
   ⟨36, "blue", "N", 1, 10, false, -1⟩,
   ⟨37, "blue", "C", 6, 11, false, -1⟩]

end CommanderChess

namespace CommanderChess

/-! Piece-square tables and the incremental "quick" evaluation
(`quick_eval_cpu`), used by the search-state snapshot contract. Tables are
transcribed row 0 first, exactly as in the source (all from blue's
perspective; red is mirrored by `get_pst_phased`). -/

def pstCMg : List (List Int) :=
  [[0,0,0,0,2,4,2,0,0,0,0],
   [0,0,0,1,4,6,4,1,0,0,0],
   [0,0,0,2,6,8,6,2,0,0,0],
   [0,0,0,2,6,8,6,2,0,0,0],
   [0,0,0,1,4,5,4,1,0,0,0],
   [0,0,0,0,2,3,2,0,0,0,0],
   [0,0,0,0,0,0,0,0,0,0,0],
   [0,0,0,0,-2,-2,-2,0,0,0,0],
   [0,0,0,-2,-4,-5,-4,-2,0,0,0],
   [0,0,-2,-4,-6,-8,-6,-4,-2,0,0],
   [0,-2,-4,-6,-8,-10,-8,-6,-4,-2,0],
   [0,-4,-6,-8,-10,-12,-10,-8,-6,-4,0]]

def pstCEg : List (List Int) :=
  [[0,0,0,2,6,8,6,2,0,0,0],
   [0,0,2,4,8,10,8,4,2,0,0],
   [0,0,4,6,10,12,10,6,4,0,0],
   [0,0,4,6,10,12,10,6,4,0,0],
   [0,0,2,4,8,10,8,4,2,0,0],
   [0,0,0,2,6,8,6,2,0,0,0],
   [0,0,0,2,6,8,6,2,0,0,0],
   [0,0,2,4,8,10,8,4,2,0,0],
   [0,0,4,6,10,12,10,6,4,0,0],
   [0,0,4,6,10,12,10,6,4,0,0],
   [0,0,4,6,10,12,10,6,4,0,0],
   [0,0,2,4,8,10,8,4,2,0,0]]

def pstInMg : List (List Int) :=
  [[0,0,0,0,0,0,0,0,0,0,0],
   [0,0,0,0,0,0,0,0,0,0,0],
   [0,0,0,0,0,0,0,0,0,0,0],
   [0,0,0,0,0,0,0,0,0,0,0],
   [0,0,0,0,0,0,0,0,0,0,0],
   [0,0,0,2,3,3,3,2,0,0,0],
   [0,0,0,4,6,7,6,4,0,0,0],
   [0,0,2,5,8,10,8,5,2,0,0],
   [0,0,4,6,10,12,10,6,4,0,0],
   [0,0,4,6,10,12,10,6,4,0,0],
   [0,0,3,5,8,10,8,5,3,0,0],
   [0,0,2,4,6,8,6,4,2,0,0]]

def pstInEg : List (List Int) :=
  [[0,0,0,0,0,0,0,0,0,0,0],
   [0,0,0,0,0,0,0,0,0,0,0],
   [0,0,0,0,0,0,0,0,0,0,0],
   [0,0,0,0,0,0,0,0,0,0,0],
   [0,0,0,2,3,3,3,2,0,0,0],
   [0,0,2,4,6,7,6,4,2,0,0],
   [0,0,4,7,10,12,10,7,4,0,0],
   [0,0,6,9,14,16,14,9,6,0,0],
   [0,0,8,12,18,22,18,12,8,0,0],
   [0,0,10,14,20,25,20,14,10,0,0],
   [0,0,12,16,22,28,22,16,12,0,0],
   [0,0,10,14,18,22,18,14,10,0,0]]

def pstTMg : List (List Int) :=
  [[0,0,0,0,0,0,0,0,0,0,0],
   [0,0,0,0,0,0,0,0,0,0,0],
   [0,0,0,0,0,0,0,0,0,0,0],
   [0,0,0,0,2,2,2,0,0,0,0],
   [0,0,0,2,4,5,4,2,0,0,0],
   [0,0,2,4,7,8,7,4,2,0,0],
   [0,0,3,6,10,12,10,6,3,0,0],
   [0,0,4,7,12,14,12,7,4,0,0],
   [0,0,4,7,12,14,12,7,4,0,0],
   [0,0,3,6,10,12,10,6,3,0,0],
   [0,0,2,4,8,10,8,4,2,0,0],
   [0,0,0,2,6,8,6,2,0,0,0]]

def pstTEg : List (List Int) :=
  [[0,0,0,0,0,0,0,0,0,0,0],
   [0,0,0,0,0,0,0,0,0,0,0],
   [0,0,0,0,0,0,0,0,0,0,0],
   [0,0,0,0,2,2,2,0,0,0,0],
   [0,0,0,2,5,6,5,2,0,0,0],
   [0,0,2,5,8,9,8,5,2,0,0],
   [0,0,4,7,11,13,11,7,4,0,0],
   [0,0,5,8,14,16,14,8,5,0,0],
   [0,0,6,10,16,18,16,10,6,0,0],
   [0,0,6,10,16,18,16,10,6,0,0],
   [0,0,5,8,14,16,14,8,5,0,0],
   [0,0,4,6,10,12,10,6,4,0,0]]

def pstAMg : List (List Int) :=
  [[0,0,0,0,0,0,0,0,0,0,0],
   [0,0,0,0,0,0,0,0,0,0,0],
   [0,0,0,3,6,7,6,3,0,0,0],
   [0,0,2,4,7,8,7,4,2,0,0],
   [0,0,2,5,8,9,8,5,2,0,0],
   [0,0,3,6,9,10,9,6,3,0,0],
   [0,0,3,6,10,12,10,6,3,0,0],
   [0,0,3,6,10,12,10,6,3,0,0],
   [0,0,2,5,8,10,8,5,2,0,0],
   [0,0,2,4,6,8,6,4,2,0,0],
   [0,0,0,2,4,6,4,2,0,0,0],
   [0,0,0,0,2,4,2,0,0,0,0]]

def pstAEg : List (List Int) :=
  [[0,0,0,0,0,0,0,0,0,0,0],
   [0,0,0,0,0,0,0,0,0,0,0],
   [0,0,0,2,5,6,5,2,0,0,0],
   [0,0,0,3,6,7,6,3,0,0,0],
   [0,0,2,4,8,9,8,4,2,0,0],
   [0,0,3,6,10,12,10,6,3,0,0],
   [0,0,4,7,12,14,12,7,4,0,0],
   [0,0,4,7,12,14,12,7,4,0,0],
   [0,0,3,6,10,12,10,6,3,0,0],
   [0,0,2,4,8,10,8,4,2,0,0],
   [0,0,0,2,6,8,6,2,0,0,0],
   [0,0,0,0,4,6,4,0,0,0,0]]

def pstAfMg : List (List Int) :=
  [[0,0,0,0,0,0,0,0,0,0,0],
   [0,0,0,0,0,0,0,0,0,0,0],
   [0,0,0,0,0,0,0,0,0,0,0],
   [0,0,0,2,4,4,4,2,0,0,0],
   [0,0,2,4,7,8,7,4,2,0,0],
   [0,0,4,6,9,10,9,6,4,0,0],
   [0,0,5,8,12,14,12,8,5,0,0],
   [0,0,6,9,14,16,14,9,6,0,0],
   [0,0,5,8,12,14,12,8,5,0,0],
   [0,0,4,6,10,12,10,6,4,0,0],
   [0,0,2,4,8,10,8,4,2,0,0],
   [0,0,0,2,6,8,6,2,0,0,0]]

def pstAfEg : List (List Int) :=
  [[0,0,0,0,0,0,0,0,0,0,0],
   [0,0,0,0,0,0,0,0,0,0,0],
   [0,0,0,0,0,0,0,0,0,0,0],
   [0,0,0,0,2,2,2,0,0,0,0],
   [0,0,0,2,5,6,5,2,0,0,0],
   [0,0,2,4,8,10,8,4,2,0,0],
   [0,0,4,7,12,14,12,7,4,0,0],
   [0,0,6,10,16,18,16,10,6,0,0],
   [0,0,8,12,18,22,18,12,8,0,0],
   [0,0,8,12,18,22,18,12,8,0,0],
   [0,0,6,10,16,18,16,10,6,0,0],
   [0,0,4,8,12,14,12,8,4,0,0]]

def pstNMg : List (List Int) :=
  [[8,8,0,0,0,0,0,0,0,0,0],
   [8,12,0,0,0,0,0,0,0,0,0],
   [8,12,0,0,0,0,0,0,0,0,0],
   [8,12,0,0,0,0,0,0,0,0,0],
   [8,10,0,0,0,0,0,0,0,0,0],
   [6,8,0,0,0,0,0,0,0,0,0],
   [6,8,0,0,0,0,0,0,0,0,0],
   [8,10,0,0,0,0,0,0,0,0,0],
   [8,12,0,0,0,0,0,0,0,0,0],
   [8,12,0,0,0,0,0,0,0,0,0],
   [8,12,0,0,0,0,0,0,0,0,0],
   [8,8,0,0,0,0,0,0,0,0,0]]

def pstNEg : List (List Int) :=
  [[10,10,0,0,0,0,0,0,0,0,0],
   [10,14,0,0,0,0,0,0,0,0,0],
   [10,14,0,0,0,0,0,0,0,0,0],
   [10,14,0,0,0,0,0,0,0,0,0],
   [10,12,0,0,0,0,0,0,0,0,0],
   [8,10,0,0,0,0,0,0,0,0,0],
   [8,10,0,0,0,0,0,0,0,0,0],
   [10,12,0,0,0,0,0,0,0,0,0],
   [10,14,0,0,0,0,0,0,0,0,0],
   [10,14,0,0,0,0,0,0,0,0,0],
   [10,14,0,0,0,0,0,0,0,0,0],
   [10,10,0,0,0,0,0,0,0,0,0]]

def pstMsMg : List (List Int) :=
  [[0,0,0,0,0,0,0,0,0,0,0],
   [0,0,0,0,0,0,0,0,0,0,0],
   [0,0,0,0,0,0,0,0,0,0,0],
   [0,0,0,0,2,2,2,0,0,0,0],
   [0,0,0,2,5,6,5,2,0,0,0],
   [0,0,2,4,7,8,7,4,2,0,0],
   [0,0,3,6,10,12,10,6,3,0,0],
   [0,0,4,7,12,14,12,7,4,0,0],
   [0,0,3,6,10,12,10,6,3,0,0],
   [0,0,2,4,8,10,8,4,2,0,0],
   [0,0,0,2,6,8,6,2,0,0,0],
   [0,0,0,0,4,6,4,0,0,0,0]]

def pstMsEg : List (List Int) :=
  [[0,0,0,0,0,0,0,0,0,0,0],
   [0,0,0,0,0,0,0,0,0,0,0],
   [0,0,0,0,0,0,0,0,0,0,0],
   [0,0,0,0,2,2,2,0,0,0,0],
   [0,0,0,2,5,6,5,2,0,0,0],
   [0,0,2,4,8,10,8,4,2,0,0],
   [0,0,4,7,12,14,12,7,4,0,0],
   [0,0,6,10,16,18,16,10,6,0,0],
   [0,0,6,10,16,18,16,10,6,0,0],
   [0,0,4,8,14,16,14,8,4,0,0],
   [0,0,2,6,10,12,10,6,2,0,0],
   [0,0,0,4,8,10,8,4,0,0,0]]

def pstAaMg : List (List Int) :=
  [[0,0,0,0,0,0,0,0,0,0,0],
   [0,0,0,0,2,2,2,0,0,0,0],
   [0,0,0,2,4,5,4,2,0,0,0],
   [0,0,2,4,6,7,6,4,2,0,0],
   [0,0,2,4,7,8,7,4,2,0,0],
   [0,0,2,4,7,8,7,4,2,0,0],
   [0,0,2,4,7,8,7,4,2,0,0],
   [0,0,2,4,7,8,7,4,2,0,0],
   [0,0,2,4,6,7,6,4,2,0,0],
   [0,0,0,2,4,5,4,2,0,0,0],
   [0,0,0,0,2,2,2,0,0,0,0],
   [0,0,0,0,0,0,0,0,0,0,0]]

def pstAaEg : List (List Int) :=
  [[0,0,0,0,0,0,0,0,0,0,0],
   [0,0,0,0,2,2,2,0,0,0,0],
   [0,0,0,2,4,5,4,2,0,0,0],
   [0,0,2,4,6,7,6,4,2,0,0],
   [0,0,2,4,7,8,7,4,2,0,0],
   [0,0,2,4,7,8,7,4,2,0,0],
   [0,0,2,4,7,8,7,4,2,0,0],
   [0,0,2,4,7,8,7,4,2,0,0],
   [0,0,2,4,6,7,6,4,2,0,0],
   [0,0,0,2,4,5,4,2,0,0,0],
   [0,0,0,0,2,2,2,0,0,0,0],
   [0,0,0,0,0,0,0,0,0,0,0]]

def pstLookup (tbl : List (List Int)) (r c : Nat) : Int := (tbl.getD r []).getD c 0

/-- Source `get_pst_phased`: mirror the row for red, pick the per-kind
midgame/endgame tables, interpolate by phase with truncating division. -/
def getPstPhased (kind player : String) (col row : Int) (phase : Int) : Int :=
  let r : Int := if player == "blue" then row else 11 - row
  if decide (r < 0) || decide (11 < r) || decide (col < 0) || decide (10 < col) then 0
  else
    let rn := r.toNat
    let cn := col.toNat
    let mgEg : Option (Int × Int) :=
      if kind == "C" then some (pstLookup pstCMg rn cn, pstLookup pstCEg rn cn)
      else if kind == "In" || kind == "M" || kind == "E" then
        some (pstLookup pstInMg rn cn, pstLookup pstInEg rn cn)
      else if kind == "T" then some (pstLookup pstTMg rn cn, pstLookup pstTEg rn cn)
      else if kind == "A" then some (pstLookup pstAMg rn cn, pstLookup pstAEg rn cn)
      else if kind == "Af" then some (pstLookup pstAfMg rn cn, pstLookup pstAfEg rn cn)
      else if kind == "N" then some (pstLookup pstNMg rn cn, pstLookup pstNEg rn cn)
      else if kind == "Aa" then some (pstLookup pstAaMg rn cn, pstLookup pstAaEg rn cn)
      else if kind == "Ms" then some (pstLookup pstMsMg rn cn, pstLookup pstMsEg rn cn)
      else none
    match mgEg with
    | none => 0
    | some me => Int.tdiv (me.1 * phase + me.2 * (256 - phase)) 256

/-- Source `get_pst`: the legacy quick-eval wrapper at phase 160. -/
def getPst (kind player : String) (col row : Int) : Int :=
  getPstPhased kind player col row 160

/-- Source `kind_index` (and the identical `kind_index_early`): first-character
dispatch with the Ms/Aa/Af second-character disambiguation. -/
def kindIndex (k : String) : Nat :=
  match k.data with
  | [] => 0
  | c :: rest =>
    if c = 'C' then 0
    else if c = 'H' then 1
    else if c = 'I' then 2
    else if c = 'M' then (if rest.head? = some 's' then 8 else 3)
    else if c = 'T' then 4
    else if c = 'E' then 5
    else if c = 'A' then
      (if rest.head? = some 'a' then 7 else if rest.head? = some 'f' then 9 else 6)
    else if c = 'N' then 10
    else 0

def pieceValueFastTable : List Int := [1000, 0, 100, 100, 200, 100, 300, 100, 200, 400, 800]

/-- Source `piece_value_fast`. -/
def pieceValueFast (kind : String) : Int := pieceValueFastTable.getD (kindIndex kind) 0

/-- Source `quick_piece_unit_score`. The hero scaling `(int)(val * 1.5f)` is
exact for every table value (all are multiples of 100 below 2^24), so it is
embedded as `val * 3 / 2` with truncating division. -/
def quickPieceUnitScore (p : Piece) : Int :=
  let val := pieceValueFast p.kind
  let val := if p.hero then Int.tdiv (val * 3) 2 else val
  val + getPst p.kind p.player p.col p.row * 2

/-- Source `quick_piece_score_cpu`. -/
def quickPieceScoreCpu (p : Piece) (cpuPlayer : String) : Int :=
  if p.player == cpuPlayer then quickPieceUnitScore p else -quickPieceUnitScore p

/-- Source `quick_eval_cpu`. -/
def quickEvalCpu (pieces : PieceList) (cpuPlayer : String) : Int :=
  pieces.foldl (fun v p => v + quickPieceScoreCpu p cpuPlayer) 0

end CommanderChess

namespace CommanderChess

/-! Zobrist hashing (`init_zobrist` / `zobrist_hash`), the search-state
snapshot make/unmake pair, the backend game-state flow and the
transposition-table store policy. -/

def pow64 : Nat := 18446744073709551616

/-- Reduction modulo 2^64, the overflow behaviour of `uint64_t`. -/
def m64 (x : Nat) : Nat := x % pow64

def splitmixGamma : Nat := 0x9E3779B97F4A7C15

/-- Output mixing of `splitmix64_next` applied to the post-increment state. -/
def splitmixMix (z : Nat) : Nat :=
  let z1 := m64 ((z ^^^ (z >>> 30)) * 0xBF58476D1CE4E5B9)
  let z2 := m64 ((z1 ^^^ (z1 >>> 27)) * 0x94D049BB133111EB)
  z2 ^^^ (z2 >>> 31)

def zobristSeed : Nat := 0xC0FFEE1234567890

/-- The i-th (0-based) draw of the splitmix64 stream of `init_zobrist`:
the state after i+1 increments of the Weyl constant, mixed. -/
def splitmixDraw (i : Nat) : Nat := splitmixMix (m64 (zobristSeed + (i + 1) * splitmixGamma))

/-- Key table `g_ZK_piece_sq[st][sq]`, filled row-major from the stream. -/
def zkPieceSq (st sq : Nat) : Nat := splitmixDraw (st * 132 + sq)

/-- Turn keys `g_ZobristTurn`, drawn right after the 88·132 piece keys. -/
def zobristTurnKey (i : Nat) : Nat := splitmixDraw (88 * 132 + i)

/-- Source `zobrist_piece_state_index`: (kind, side, hero, carried) packed. -/
def zobristPieceStateIndex (p : Piece) : Nat :=
  let ki := kindIndex p.kind
  let pl := if p.player == "red" then 0 else 1
  let hi := if p.hero then 1 else 0
  let ci := if decide (0 ≤ p.carrierId) then 1 else 0
  ((ki * 2 + pl) * 2 + hi) * 2 + ci

/-- Source `zobrist_hash`: XOR of the turn key and the per-piece keys of all
pieces inside the board bounds (square index `row * 11 + col`). -/
def zobristHash (pieces : PieceList) (turn : String) : Nat :=
  pieces.foldl
    (fun h p =>
      if decide (0 ≤ p.row) && decide (p.row < 12) && decide (0 ≤ p.col) && decide (p.col < 11) then
        h ^^^ zkPieceSq (zobristPieceStateIndex p) (p.row * 11 + p.col).toNat
      else h)
    (zobristTurnKey (if turn == "red" then 0 else 1))

/-- Source `zobrist_cpu_perspective_salt`. -/
def zobristCpuPerspectiveSalt (cpuPlayer : String) : Nat :=
  if cpuPlayer == "red" then 0x9E3779B97F4A7C15 else 0

/-- Commander-position cache of `SearchState.rebuild_caches` (last write
wins; `(-1, -1)` when the side has no Commander). -/
def rebuildCmd (pieces : PieceList) : ((Int × Int) × (Int × Int)) :=
  pieces.foldl
    (fun acc p =>
      if p.kind == "C" then
        if p.player == "red" then ((p.col, p.row), acc.2) else (acc.1, (p.col, p.row))
      else acc)
    ((-1, -1), (-1, -1))

/-- Navy-count cache of `SearchState.rebuild_caches`. -/
def rebuildNavy (pieces : PieceList) : Nat × Nat :=
  pieces.foldl
    (fun acc p =>
      if p.kind == "N" then
        if p.player == "red" then (acc.1 + 1, acc.2) else (acc.1, acc.2 + 1)
      else acc)
    (0, 0)

/-- Source `SearchState` (the attack cache is reduced to its validity flag:
both `make` and `unmake` leave it invalidated, and no claim consults its
contents). -/
structure SearchState where
  pieces : PieceList
  turn : String
  hash : Nat
  quickEval : Int
  atkValid : Bool
  cmd : (Int × Int) × (Int × Int)
  navy : Nat × Nat
deriving DecidableEq, Repr

/-- Source `UndoMove` (`had_capture` and `captured_piece` fused into an
`Option`; `used_snapshot` is the constant `true` of the implementation). -/
structure UndoMove where
  usedSnapshot : Bool
  snapshotPieces : PieceList
  movedPiece : Piece
  capturedPiece : Option Piece
  turnBefore : String
  hashBefore : Nat
  quickEvalBefore : Int
deriving DecidableEq, Repr

/-- Source `make_search_state`. -/
def makeSearchState (pieces : PieceList) (turn cpuPlayer : String) : SearchState :=
  { pieces := pieces, turn := turn,
    hash := zobristHash pieces turn ^^^ zobristCpuPerspectiveSalt cpuPlayer,
    quickEval := quickEvalCpu pieces cpuPlayer,
    atkValid := false,
    cmd := rebuildCmd pieces, navy := rebuildNavy pieces }

/-- Source `make_move_inplace_snapshot` (also `make_move_inplace`, which
just delegates to it): legality-check the move, snapshot the four restored
fields plus the whole piece list into the undo record, then replay the
canonical `apply_move` path. `none` models the `false` return. -/
def makeMoveInplace (st : SearchState) (m : MoveTriple) (cpuPlayer : String) :
    Option (SearchState × UndoMove) :=
  if !onBoard m.dc m.dr then none
  else
    match pieceById st.pieces m.pid with
    | none => none
    | some moved =>
      if moved.player != st.turn then none
      else if !hasLegalDestination moved st.pieces m.dc m.dr then none
      else
        let captured :=
          match pieceAt st.pieces m.dc m.dr with
          | some t => if t.player != st.turn then some t else none
          | none => none
        let u : UndoMove :=
          { usedSnapshot := true, snapshotPieces := st.pieces, movedPiece := moved,
            capturedPiece := captured, turnBefore := st.turn,
            hashBefore := st.hash, quickEvalBefore := st.quickEval }
        let newPieces := applyMoveImpl st.pieces m.pid m.dc m.dr st.turn
        let newTurn := opp st.turn
        some
          ({ pieces := newPieces, turn := newTurn,
             hash := zobristHash newPieces newTurn ^^^ zobristCpuPerspectiveSalt cpuPlayer,
             quickEval := quickEvalCpu newPieces cpuPlayer,
             atkValid := false,
             cmd := rebuildCmd newPieces, navy := rebuildNavy newPieces }, u)

/-- Source `unmake_move_inplace`: full snapshot restore of pieces, turn,
hash and quick eval, attack cache invalidated, caches rebuilt. -/
def unmakeMoveInplace (_st : SearchState) (u : UndoMove) : SearchState :=
  { pieces := u.snapshotPieces, turn := u.turnBefore, hash := u.hashBefore,
    quickEval := u.quickEvalBefore, atkValid := false,
    cmd := rebuildCmd u.snapshotPieces, navy := rebuildNavy u.snapshotPieces }

/-- Backend `GameState` (`src/backend/engine.hpp`), restricted to the
fields read or written by `apply_move` / `finalize_apply`; the mode string
is kept in its normalized `GameMode` form. Difficulty and bot-budget fields
are omitted: the move-application flow never reads them. -/
structure GameState where
  pieces : PieceList
  current : String
  positionHistory : List Nat
  gameOver : Bool
  result : String
  hasLastMove : Bool
  lastMove : MoveTriple
  lastMoveCapture : Bool
  lastMovePlayer : String
  gameMode : GameMode
deriving DecidableEq, Repr

/-- Backend `ActionStatus`. -/
structure ActionStatus where
  ok : Bool
  error : String
  gameOver : Bool
  result : String
deriving DecidableEq, Repr

/-- Backend `finalize_apply`: win check before the side switch, then hash
push and threefold-draw detection. -/
def finalizeApply (state : GameState) (piecesAfter : PieceList) (mover : String) :
    ActionStatus × GameState :=
  let wm := checkWin state.gameMode piecesAfter mover
  if wm != "" then
    (⟨true, "", true, wm⟩,
     { state with pieces := piecesAfter, gameOver := true, result := wm })
  else
    let cur := opp state.current
    let h := zobristHash piecesAfter cur
    let hist := pushPositionHistory state.positionHistory h
    if isThreefoldRepetition hist h then
      (⟨true, "", true, "Draw — threefold repetition."⟩,
       { state with
         current := cur
         positionHistory := hist
         pieces := piecesAfter
         gameOver := true
         result := "Draw — threefold repetition." })
    else
      (⟨true, "", false, ""⟩,
       { state with
         current := cur
         positionHistory := hist
         pieces := piecesAfter
         gameOver := false
         result := "" })

/-- Backend `apply_move`: the four rejection gates, then the checked core
apply and `finalize_apply`. -/
def backendApplyMove (state : GameState) (move : MoveTriple) :
    ActionStatus × GameState :=
  if state.gameOver then
    (⟨false, "game is already over", true, state.result⟩, state)
  else
    match pieceById state.pieces move.pid with
    | none => (⟨false, "piece not found", false, ""⟩, state)
    | some piece =>
      if piece.player != state.current then
        (⟨false, "not this piece's turn", false, ""⟩, state)
      else if !hasLegalDestination piece state.pieces move.dc move.dr then
        (⟨false, "illegal move", false, ""⟩, state)
      else
        let enemyBefore := (state.pieces.filter (fun p => p.player != state.current)).length
        let after := applyMoveChecked state.pieces move.pid move.dc move.dr state.current
        let enemyAfter := (after.filter (fun p => p.player != state.current)).length
        let state1 :=
          { state with
            hasLastMove := true
            lastMove := ⟨piece.id, move.dc, move.dr⟩
            lastMoveCapture := decide (enemyAfter < enemyBefore)
            lastMovePlayer := state.current }
        finalizeApply state1 after state1.lastMovePlayer

def ttExact : Nat := 0
def ttLower : Nat := 1
def ttUpper : Nat := 2

/-- Two's-complement wrap of the `(int16_t)` cast. -/
def wrap16 (x : Int) : Int := (x + 32768).emod 65536 - 32768

/-- Two's-complement wrap of the `(int8_t)` cast. -/
def wrap8 (x : Int) : Int := (x + 128).emod 256 - 128

/-- Source `TTEntry` (field widths kept by explicit wrapping at the store). -/
structure TTEntry where
  key : Nat
  depth : Int
  val : Int
  flag : Nat
  age : Nat
  mvPid : Int
  mvDc : Int
  mvDr : Int
deriving DecidableEq, Repr

/-- The entry written by `tt_store`'s `write_entry` lambda: depth capped at
`INT16_MAX`, value clamped to ±32000, move packed with narrowing casts. -/
def ttWriteEntry (age : Nat) (h : Nat) (depth : Int) (flag : Nat) (val : Int)
    (best : MoveTriple) : TTEntry :=
  { key := h, depth := wrap16 (min depth 32767),
    val := max (-32000) (min 32000 val), flag := flag, age := age,
    mvPid := wrap16 best.pid, mvDc := wrap8 best.dc, mvDr := wrap8 best.dr }

/-- Source `tt_store` on one cluster (the cluster addressed by `h & mask`;
the global age becomes the `age` parameter): slot 0 is depth-preferred with
the stale/empty/exact exceptions, slot 1 always receives the new entry. -/
def ttStore (cluster : TTEntry × TTEntry) (age : Nat) (h : Nat) (depth : Int)
    (flag : Nat) (val : Int) (best : MoveTriple) : TTEntry × TTEntry :=
  let w := ttWriteEntry age h depth flag val best
  let depthSlot := cluster.1
  let slot0Stale := depthSlot.age != age
  let newSlot0 :=
    if depthSlot.key == h then
      if decide (depthSlot.depth ≤ depth) || flag == ttExact then w else depthSlot
    else if depthSlot.key == 0 || slot0Stale || decide (depthSlot.depth ≤ depth) then w
    else depthSlot
  (newSlot0, w)

end CommanderChess

namespace CommanderChess

/-! General-purpose lemmas shared by the claim proofs. -/

lemma contains_iff_mem_pair (l : List (Int × Int)) (x : Int × Int) :
    l.contains x = true ↔ x ∈ l := by
  simp [List.contains]

lemma string_eq_empty_of_length_zero (s : String) (h : s.length = 0) : s = "" := by
  cases s with
  | mk data =>
    cases data with
    | nil => rfl
    | cons c cs => simp [String.length] at h

lemma append_ne_empty (a b : String) (hb : b ≠ "") : a ++ b ≠ "" := by
  intro h
  have h2 := congrArg String.length h
  rw [String.length_append] at h2
  have hz : String.length "" = 0 := rfl
  rw [hz] at h2
  exact hb (string_eq_empty_of_length_zero b (by omega))

end CommanderChess

namespace CommanderChess

/-! Claim C9: transposition-table store policy. -/

/-- C9: `tt_store` always overwrites cluster slot 1 with the freshly packed
entry; it overwrites slot 0 only when the new depth is at least the stored
depth, or the stored slot is stale (age differs from the store's
generation), or the slot is empty (zero key), or the incoming bound is
exact; and the value it writes is clamped to the range ±32000. -/
theorem ttStore_replacement_policy (cluster : TTEntry × TTEntry) (age : Nat)
    (h : Nat) (depth : Int) (flag : Nat) (val : Int) (best : MoveTriple) :
    (ttStore cluster age h depth flag val best).2 = ttWriteEntry age h depth flag val best ∧
    (-32000 ≤ (ttStore cluster age h depth flag val best).2.val ∧
      (ttStore cluster age h depth flag val best).2.val ≤ 32000) ∧
    ((ttStore cluster age h depth flag val best).1 = cluster.1 ∨
      (ttStore cluster age h depth flag val best).1 = ttWriteEntry age h depth flag val best) ∧
    ((ttStore cluster age h depth flag val best).1 ≠ cluster.1 →
      (cluster.1.depth ≤ depth ∨ cluster.1.age ≠ age ∨ cluster.1.key = 0 ∨ flag = ttExact)) := by
  refine ⟨rfl, ?_, ?_, ?_⟩
  · constructor
    · show -32000 ≤ max (-32000) (min 32000 val)
      exact le_max_left _ _
    · show max (-32000) (min 32000 val) ≤ 32000
      exact max_le (by norm_num) (min_le_left _ _)
  · have hfst : (ttStore cluster age h depth flag val best).1 =
        (if cluster.1.key == h then
          if decide (cluster.1.depth ≤ depth) || flag == ttExact then
            ttWriteEntry age h depth flag val best else cluster.1
        else if cluster.1.key == 0 || cluster.1.age != age ||
                decide (cluster.1.depth ≤ depth) then
          ttWriteEntry age h depth flag val best
        else cluster.1) := rfl
    rw [hfst]
    split_ifs <;> simp
  · have hfst : (ttStore cluster age h depth flag val best).1 =
        (if cluster.1.key == h then
          if decide (cluster.1.depth ≤ depth) || flag == ttExact then
            ttWriteEntry age h depth flag val best else cluster.1
        else if cluster.1.key == 0 || cluster.1.age != age ||
                decide (cluster.1.depth ≤ depth) then
          ttWriteEntry age h depth flag val best
        else cluster.1) := rfl
    rw [hfst]
    split_ifs with h1 h2 h3
    · intro _
      rcases (Bool.or_eq_true _ _).mp h2 with hd | he
      · exact Or.inl (of_decide_eq_true hd)
      · exact Or.inr (Or.inr (Or.inr (by simpa [ttExact] using he)))
    · intro hne; exact absurd rfl hne
    · intro _
      rcases (Bool.or_eq_true _ _).mp h3 with h4 | hd
      · rcases (Bool.or_eq_true _ _).mp h4 with hk | ha
        · exact Or.inr (Or.inr (Or.inl (by simpa using hk)))
        · exact Or.inr (Or.inl (by simpa using ha))
      · exact Or.inl (of_decide_eq_true hd)
    · intro hne; exact absurd rfl hne

/-- Witness for C9 at a concrete store: a stale slot 0 is overwritten, the
always-replace slot receives the packed entry, and the clamp bounds hold. -/
theorem ttStore_replacement_policy_witness :
    ((ttStore (⟨7, 10, 5, 1, 0, 0, 0, 0⟩, ⟨9, 1, 1, 1, 0, 0, 0, 0⟩) 1 5 2 1 50000
        ⟨3, 4, 5⟩).2 = ttWriteEntry 1 5 2 1 50000 ⟨3, 4, 5⟩) ∧
    ((10 : Int) ≤ 2 ∨ (0 : Nat) ≠ 1 ∨ (7 : Nat) = 0 ∨ (1 : Nat) = ttExact) := by
  have h := ttStore_replacement_policy (⟨7, 10, 5, 1, 0, 0, 0, 0⟩, ⟨9, 1, 1, 1, 0, 0, 0, 0⟩)
    1 5 2 1 50000 ⟨3, 4, 5⟩
  exact ⟨h.1, h.2.2.2 (by decide)⟩

end CommanderChess

namespace CommanderChess

/-! Claim C5: terminal detection. -/

/-- C5: `check_win` reports a winner exactly when the opponent of the last
mover has no on-board Commander, or — additionally — no Navy in marine
mode, no Air Force in air mode, or no Tank, Infantry and Artillery in land
mode; in full mode only Commander capture terminates. The marine
elimination message is the mover's side followed by
" wins — Naval division destroyed!". -/
theorem checkWin_characterization (mode : GameMode) (pieces : PieceList) (last : String) :
    (checkWin mode pieces last ≠ "" ↔
      (enemyKindCount pieces (opp last) "C" = 0 ∨
       (mode = GameMode.marineBattle ∧ enemyKindCount pieces (opp last) "N" = 0) ∨
       (mode = GameMode.airBattle ∧ enemyKindCount pieces (opp last) "Af" = 0) ∨
       (mode = GameMode.landBattle ∧ enemyKindCount pieces (opp last) "T" = 0 ∧
        enemyKindCount pieces (opp last) "In" = 0 ∧
        enemyKindCount pieces (opp last) "A" = 0))) ∧
    (mode = GameMode.marineBattle → enemyKindCount pieces (opp last) "C" ≠ 0 →
      enemyKindCount pieces (opp last) "N" = 0 →
      checkWin mode pieces last = last ++ " wins — Naval division destroyed!") := by
  have hCm : (" wins — Commander captured!" : String) ≠ "" := by decide
  have hNv : (" wins — Naval division destroyed!" : String) ≠ "" := by decide
  have hAf : (" wins — Air Force destroyed!" : String) ≠ "" := by decide
  have hLd : (" wins — Land division destroyed!" : String) ≠ "" := by decide
  constructor
  · cases mode <;>
      simp only [checkWin] <;>
      split_ifs <;>
      simp_all [append_ne_empty _ _ hCm, append_ne_empty _ _ hNv,
        append_ne_empty _ _ hAf, append_ne_empty _ _ hLd]
  · intro hm hc hn
    subst hm
    simp only [checkWin]
    rw [if_neg (by simpa using hc), if_pos (by simpa using hn)]

/-- Witness for C5: the E6-style marine elimination — blue keeps its
Commander but has no Navy, so red's capture ends the game with the naval
message. -/
theorem checkWin_characterization_witness :
    checkWin GameMode.marineBattle
      [⟨0, "red", "C", 6, 0, false, -1⟩, ⟨1, "red", "N", 1, 1, false, -1⟩,
       ⟨2, "blue", "C", 6, 11, false, -1⟩] "red" =
      "red" ++ " wins — Naval division destroyed!" := by
  exact (checkWin_characterization GameMode.marineBattle
    [⟨0, "red", "C", 6, 0, false, -1⟩, ⟨1, "red", "N", 1, 1, false, -1⟩,
     ⟨2, "blue", "C", 6, 11, false, -1⟩] "red").2 rfl (by decide) (by decide)

end CommanderChess

namespace CommanderChess

/-! Claim C8: position history, threefold repetition, draw declaration. -/

lemma isThreefoldGo_iff (hash : Nat) :
    ∀ (l : List Nat) (cnt : Nat), cnt < 3 →
      (isThreefoldGo l hash cnt = true ↔ 3 ≤ cnt + l.count hash) := by
  intro l
  induction l with
  | nil =>
    intro cnt hcnt
    simp [isThreefoldGo, List.count_nil]
    omega
  | cons a l ih =>
    intro cnt hcnt
    rw [List.count_cons]
    by_cases ha : (a == hash) = true
    · rw [isThreefoldGo, if_pos ha, ha]
      by_cases hc : cnt + 1 ≥ 3
      · rw [if_pos hc]
        simp
        omega
      · rw [if_neg hc]
        rw [ih (cnt + 1) (by omega)]
        simp
        omega
    · rw [isThreefoldGo, if_neg ha]
      rw [Bool.not_eq_true] at ha
      rw [ha]
      rw [ih cnt hcnt]
      simp

/-- C8: `push_position_history` appends the hash and keeps only the newest
200 entries (dropping from the front); `is_threefold_repetition` holds
exactly when the hash occurs at least three times in the retained window;
and after a successful non-winning move, `finalize_apply` declares
"Draw — threefold repetition." exactly when that test fires on the pushed
history. -/
theorem position_history_threefold_draw (history : List Nat) (h : Nat)
    (state : GameState) (piecesAfter : PieceList) (mover : String) :
    pushPositionHistory history h = (history ++ [h]).drop (history.length + 1 - 200) ∧
    (pushPositionHistory history h).length = min (history.length + 1) 200 ∧
    (isThreefoldRepetition history h = true ↔ 3 ≤ history.count h) ∧
    (checkWin state.gameMode piecesAfter mover = "" →
      ((finalizeApply state piecesAfter mover).2.result = "Draw — threefold repetition." ↔
        isThreefoldRepetition
          (pushPositionHistory state.positionHistory (zobristHash piecesAfter (opp state.current)))
          (zobristHash piecesAfter (opp state.current)) = true)) := by
  have hlen : (history ++ [h]).length = history.length + 1 := by simp
  have hpush : pushPositionHistory history h =
      (history ++ [h]).drop (history.length + 1 - 200) := by
    rw [pushPositionHistory]
    by_cases hgt : (history ++ [h]).length > 200
    · rw [if_pos hgt, hlen]
    · rw [if_neg hgt]
      rw [hlen] at hgt
      have : history.length + 1 - 200 = 0 := by omega
      rw [this, List.drop_zero]
  refine ⟨hpush, ?_, ?_, ?_⟩
  · rw [hpush, List.length_drop, hlen]
    omega
  · have hgo := isThreefoldGo_iff h history 0 (by omega)
    simpa [isThreefoldRepetition] using hgo
  · intro hw
    have hbne : (checkWin state.gameMode piecesAfter mover != "") = false := by
      rw [hw]; rfl
    rw [finalizeApply, hbne]
    simp only [Bool.false_eq_true, if_false]
    cases hthree : isThreefoldRepetition
        (pushPositionHistory state.positionHistory (zobristHash piecesAfter (opp state.current)))
        (zobristHash piecesAfter (opp state.current)) with
    | true => simp [hthree]
    | false => simp [hthree]

def c8wPieces : PieceList := [⟨0, "red", "C", 6, 0, false, -1⟩, ⟨1, "blue", "C", 6, 11, false, -1⟩]

def c8wHash : Nat := zobristHash c8wPieces "blue"

def c8wState : GameState :=
  { pieces := c8wPieces, current := "red", positionHistory := [c8wHash, c8wHash],
    gameOver := false, result := "", hasLastMove := false,
    lastMove := ⟨-1, -1, -1⟩, lastMoveCapture := false, lastMovePlayer := "red",
    gameMode := GameMode.fullBattle }

/-- Witness for C8: with the same position hash already recorded twice, a
non-winning move lands on the third occurrence and the flow declares the
threefold draw. -/
theorem position_history_threefold_draw_witness :
    (finalizeApply c8wState c8wPieces "red").2.result = "Draw — threefold repetition." := by
  have h := (position_history_threefold_draw [] 0 c8wState c8wPieces "red").2.2.2
    (by decide)
  apply h.mpr
  show isThreefoldRepetition (pushPositionHistory [c8wHash, c8wHash]
    (zobristHash c8wPieces (opp "red"))) (zobristHash c8wPieces (opp "red")) = true
  show isThreefoldRepetition (pushPositionHistory [c8wHash, c8wHash] c8wHash) c8wHash = true
  have hp : pushPositionHistory [c8wHash, c8wHash] c8wHash = [c8wHash, c8wHash, c8wHash] := by
    rfl
  rw [hp]
  simp [isThreefoldRepetition, isThreefoldGo]

end CommanderChess

namespace CommanderChess

/-! Claim C7: snapshot make/unmake round trip. -/

/-- C7: whenever `make_move_inplace` succeeds, `unmake_move_inplace` with
the returned undo record restores the piece list, the side to move, the
position hash and the cached quick evaluation exactly to their pre-move
values. -/
theorem make_unmake_roundtrip (st : SearchState) (m : MoveTriple) (cpuPlayer : String)
    (st' : SearchState) (u : UndoMove)
    (hmk : makeMoveInplace st m cpuPlayer = some (st', u)) :
    (unmakeMoveInplace st' u).pieces = st.pieces ∧
    (unmakeMoveInplace st' u).turn = st.turn ∧
    (unmakeMoveInplace st' u).hash = st.hash ∧
    (unmakeMoveInplace st' u).quickEval = st.quickEval := by
  unfold makeMoveInplace at hmk
  split at hmk
  · exact Option.noConfusion hmk
  · split at hmk
    · exact Option.noConfusion hmk
    · split at hmk
      · exact Option.noConfusion hmk
      · split at hmk
        · exact Option.noConfusion hmk
        · simp only [Option.some.injEq, Prod.mk.injEq] at hmk
          obtain ⟨_, hu⟩ := hmk
          subst hu
          exact ⟨rfl, rfl, rfl, rfl⟩

def c7wDummyUndo : UndoMove :=
  ⟨true, [], ⟨0, "", "", 0, 0, false, -1⟩, none, "", 0, 0⟩

def c7wState : SearchState :=
  makeSearchState [⟨0, "red", "C", 6, 0, false, -1⟩, ⟨1, "blue", "C", 6, 11, false, -1⟩]
    "red" "red"

def c7wPair : SearchState × UndoMove :=
  match makeMoveInplace c7wState ⟨0, 6, 1⟩ "red" with
  | some r => r
  | none => (c7wState, c7wDummyUndo)

/-- Witness for C7: a concrete Commander step is made and unmade; the four
restored fields agree with the pre-move state. -/
theorem make_unmake_roundtrip_witness :
    makeMoveInplace c7wState ⟨0, 6, 1⟩ "red" = some c7wPair ∧
    ((unmakeMoveInplace c7wPair.1 c7wPair.2).pieces = c7wState.pieces ∧
     (unmakeMoveInplace c7wPair.1 c7wPair.2).turn = c7wState.turn ∧
     (unmakeMoveInplace c7wPair.1 c7wPair.2).hash = c7wState.hash ∧
     (unmakeMoveInplace c7wPair.1 c7wPair.2).quickEval = c7wState.quickEval) := by
  have hmk : makeMoveInplace c7wState ⟨0, 6, 1⟩ "red" = some c7wPair := by decide
  refine ⟨hmk, make_unmake_roundtrip c7wState ⟨0, 6, 1⟩ "red" c7wPair.1 c7wPair.2 ?_⟩
  rw [hmk]

end CommanderChess

namespace CommanderChess

/-! Claim C6: public `apply_move` rejection contract. -/

/-- C6: the backend `apply_move` fails with "game is already over" on a
terminal state, "piece not found" when no piece carries the id, "not this
piece's turn" when the piece belongs to the other side, and "illegal move"
when the destination is not in the piece's generated move set; in every
rejection case the returned game state is exactly the input state. -/
theorem backend_apply_move_rejections (state : GameState) (move : MoveTriple) :
    (state.gameOver = true →
      backendApplyMove state move =
        (⟨false, "game is already over", true, state.result⟩, state)) ∧
    (state.gameOver = false → pieceById state.pieces move.pid = none →
      backendApplyMove state move = (⟨false, "piece not found", false, ""⟩, state)) ∧
    (∀ piece, state.gameOver = false → pieceById state.pieces move.pid = some piece →
      piece.player ≠ state.current →
      backendApplyMove state move = (⟨false, "not this piece's turn", false, ""⟩, state)) ∧
    (∀ piece, state.gameOver = false → pieceById state.pieces move.pid = some piece →
      piece.player = state.current →
      hasLegalDestination piece state.pieces move.dc move.dr = false →
      backendApplyMove state move = (⟨false, "illegal move", false, ""⟩, state)) := by
  refine ⟨?_, ?_, ?_, ?_⟩
  · intro h
    simp [backendApplyMove, h]
  · intro h hnone
    simp [backendApplyMove, h, hnone]
  · intro piece h hsome hneq
    have hb : (piece.player != state.current) = true := by
      simp [bne_iff_ne]
      exact hneq
    simp [backendApplyMove, h, hsome, hb]
  · intro piece h hsome heq hleg
    have hb : (piece.player != state.current) = false := by
      simp [bne_iff_ne]
      exact heq
    simp [backendApplyMove, h, hsome, hb, hleg]

def c6wBase : GameState :=
  { pieces := [⟨0, "red", "In", 5, 5, false, -1⟩, ⟨1, "blue", "C", 6, 11, false, -1⟩],
    current := "red", positionHistory := [], gameOver := false, result := "",
    hasLastMove := false, lastMove := ⟨-1, -1, -1⟩, lastMoveCapture := false,
    lastMovePlayer := "red", gameMode := GameMode.fullBattle }

/-- Witness for C6: the four rejection kinds at concrete inputs, each with
the untouched state. -/
theorem backend_apply_move_rejections_witness :
    backendApplyMove { c6wBase with gameOver := true, result := "r" } ⟨0, 5, 6⟩ =
      (⟨false, "game is already over", true, "r"⟩,
        { c6wBase with gameOver := true, result := "r" }) ∧
    backendApplyMove c6wBase ⟨9, 5, 6⟩ = (⟨false, "piece not found", false, ""⟩, c6wBase) ∧
    backendApplyMove c6wBase ⟨1, 6, 10⟩ =
      (⟨false, "not this piece's turn", false, ""⟩, c6wBase) ∧
    backendApplyMove c6wBase ⟨0, 9, 9⟩ = (⟨false, "illegal move", false, ""⟩, c6wBase) := by
  refine ⟨?_, ?_, ?_, ?_⟩
  · exact (backend_apply_move_rejections
      { c6wBase with gameOver := true, result := "r" } ⟨0, 5, 6⟩).1 rfl
  · exact (backend_apply_move_rejections c6wBase ⟨9, 5, 6⟩).2.1 rfl (by decide)
  · exact (backend_apply_move_rejections c6wBase ⟨1, 6, 10⟩).2.2.1
      ⟨1, "blue", "C", 6, 11, false, -1⟩ rfl (by decide) (by decide)
  · exact (backend_apply_move_rejections c6wBase ⟨0, 9, 9⟩).2.2.2
      ⟨0, "red", "In", 5, 5, false, -1⟩ rfl (by decide) rfl (by decide)

end CommanderChess

namespace CommanderChess

/-! Claim C10: sea exclusion for the infantry class (In/M/E). -/

lemma mem_foldr_append {α β : Type} (f : α → List β) (l : List α) (x : β) :
    x ∈ l.foldr (fun d acc => f d ++ acc) [] ↔ ∃ d ∈ l, x ∈ f d := by
  induction l with
  | nil => simp
  | cons a l ih => simp [List.mem_append, ih]

lemma isSea_false_iff (c r : Int) : isSea c r = false ↔ 3 ≤ c := by
  simp [isSea]
  omega


lemma genericRay_sea_free (pieces : PieceList) (piece : Piece) (dx dy : Int) :
    ∀ (fuel s : Nat) (c r : Int),
      (c, r) ∈ genericRay pieces piece dx dy fuel s → isSea c r = false := by
  intro fuel
  induction fuel with
  | zero => intro s c r hmem; simp [genericRay] at hmem
  | succ n ih =>
    intro s c r hmem
    rw [genericRay] at hmem
    by_cases hcond : (!onBoard (piece.col + dx * (s : Int)) (piece.row + dy * (s : Int)) ||
        isSea (piece.col + dx * (s : Int)) (piece.row + dy * (s : Int))) = true
    · rw [if_pos hcond] at hmem
      simp at hmem
    · rw [if_neg hcond] at hmem
      have hsea : isSea (piece.col + dx * (s : Int)) (piece.row + dy * (s : Int)) = false := by
        cases h : isSea (piece.col + dx * (s : Int)) (piece.row + dy * (s : Int))
        · rfl
        · exact absurd (by simp [h]) hcond
      cases hfind : ctxPieceAt pieces (piece.col + dx * (s : Int)) (piece.row + dy * (s : Int)) with
      | some t =>
        simp only [hfind] at hmem
        split_ifs at hmem <;> simp at hmem
        · obtain ⟨hc, hr⟩ := hmem; rw [hc, hr]; exact hsea
        · obtain ⟨hc, hr⟩ := hmem; rw [hc, hr]; exact hsea
      | none =>
        simp only [hfind] at hmem
        rcases List.mem_cons.mp hmem with heq | htail
        · have hc : c = piece.col + dx * (s : Int) := congrArg Prod.fst heq
          have hr : r = piece.row + dy * (s : Int) := congrArg Prod.snd heq
          rw [hc, hr]; exact hsea
        · exact ih (s + 1) c r htail

end CommanderChess

namespace CommanderChess

lemma eSteps_sea_free (pieces : PieceList) (piece : Piece) (c r : Int)
    (hmem : (c, r) ∈ eSteps pieces piece) : isSea c r = false := by
  rw [eSteps] at hmem
  obtain ⟨d, _, hbody⟩ := (mem_foldr_append _ _ _).mp hmem
  dsimp only at hbody
  by_cases hcond : (!onBoard (piece.col + d.1) (piece.row + d.2) ||
      isSea (piece.col + d.1) (piece.row + d.2)) = true
  · rw [if_pos hcond] at hbody
    simp at hbody
  · rw [if_neg hcond] at hbody
    have hsea : isSea (piece.col + d.1) (piece.row + d.2) = false := by
      cases h : isSea (piece.col + d.1) (piece.row + d.2)
      · rfl
      · exact absurd (by simp [h]) hcond
    cases hfind : ctxPieceAt pieces (piece.col + d.1) (piece.row + d.2) with
    | some t =>
      simp only [hfind] at hbody
      split_ifs at hbody <;> simp at hbody
      · obtain ⟨hc, hr⟩ := hbody; rw [hc, hr]; exact hsea
      · obtain ⟨hc, hr⟩ := hbody; rw [hc, hr]; exact hsea
    | none =>
      simp only [hfind] at hbody
      simp at hbody
      obtain ⟨hc, hr⟩ := hbody; rw [hc, hr]; exact hsea

lemma getMoveMask_inf_class_sea_free (piece : Piece) (pieces : PieceList) (c r : Int)
    (hk : piece.kind = "In" ∨ piece.kind = "M" ∨ piece.kind = "E")
    (hmem : (c, r) ∈ getMoveMask piece pieces) : isSea c r = false := by
  rcases hk with hk | hk | hk
  · rw [getMoveMask, hk] at hmem
    simp only [pieceDefRange] at hmem
    simp at hmem
    obtain ⟨-, hmem⟩ := hmem
    rw [hqGate] at hmem
    have hmem2 := (List.mem_filter.mp hmem).1
    rw [raysFor] at hmem2
    obtain ⟨d, -, hray⟩ := (mem_foldr_append _ _ _).mp hmem2
    exact genericRay_sea_free pieces piece d.1 d.2 _ 1 c r hray
  · rw [getMoveMask, hk] at hmem
    simp only [pieceDefRange] at hmem
    simp at hmem
    obtain ⟨-, hmem⟩ := hmem
    rw [hqGate] at hmem
    have hmem2 := (List.mem_filter.mp hmem).1
    rw [raysFor] at hmem2
    obtain ⟨d, -, hray⟩ := (mem_foldr_append _ _ _).mp hmem2
    exact genericRay_sea_free pieces piece d.1 d.2 _ 1 c r hray
  · rw [getMoveMask, hk] at hmem
    simp only [pieceDefRange] at hmem
    simp at hmem
    obtain ⟨-, hmem⟩ := hmem
    rw [hqGate] at hmem
    exact eSteps_sea_free pieces piece c r (List.mem_filter.mp hmem).1

def c10wBoard : PieceList :=
  [⟨0, "red", "In", 2, 4, false, -1⟩, ⟨1, "red", "C", 6, 0, false, -1⟩,
   ⟨2, "blue", "C", 6, 11, false, -1⟩]

/-- C10: the generator treats every column ≤ 2 as sea; the initial setup
places the red Infantry at (2,4) and a blue Infantry at (2,7); an Infantry
free to move can step off column 2; and no Infantry, Militia or Engineer
move destination ever has column < 3 — so the infantry class can never
re-enter columns 0–2. -/
theorem infantry_class_sea_exclusion :
    ((⟨14, "red", "In", 2, 4, false, -1⟩ : Piece) ∈ makeInitialPieces ∧
     (⟨23, "blue", "In", 2, 7, false, -1⟩ : Piece) ∈ makeInitialPieces) ∧
    (∀ c r : Int, isSea c r = true ↔ c ≤ 2) ∧
    ((3, 4) ∈ getMoves ⟨0, "red", "In", 2, 4, false, -1⟩ c10wBoard) ∧
    (∀ (piece : Piece) (pieces : PieceList) (c r : Int),
      piece.kind = "In" ∨ piece.kind = "M" ∨ piece.kind = "E" →
      (c, r) ∈ getMoves piece pieces → 3 ≤ c) := by
  refine ⟨by decide, ?_, by decide, ?_⟩
  · intro c r
    simp [isSea]
  · intro piece pieces c r hk hmem
    rw [getMoves] at hmem
    have hmask := (contains_iff_mem_pair _ _).mp (List.mem_filter.mp hmem).2
    exact (isSea_false_iff c r).mp (getMoveMask_inf_class_sea_free piece pieces c r hk hmask)

/-- Witness for C10: the red Infantry's concrete step (2,4) → (3,4) has
destination column ≥ 3. -/
theorem infantry_class_sea_exclusion_witness :
    ((3, 4) ∈ getMoves ⟨0, "red", "In", 2, 4, false, -1⟩ c10wBoard) ∧ (3 : Int) ≤ 3 :=
  ⟨infantry_class_sea_exclusion.2.2.1,
   infantry_class_sea_exclusion.2.2.2 ⟨0, "red", "In", 2, 4, false, -1⟩ c10wBoard 3 4
     (Or.inl rfl) infantry_class_sea_exclusion.2.2.1⟩

end CommanderChess

namespace CommanderChess

/-! Claim C2: Commander move set. -/

lemma hqGate_c (l : List (Int × Int)) : hqGate "C" l = l := by
  rw [hqGate]
  induction l with
  | nil => rfl
  | cons a l ih => simp [List.filter_cons, ih]

lemma mem_boardSquaresSorted (c r : Int) :
    (c, r) ∈ boardSquaresSorted ↔ onBoard c r = true := by
  rw [boardSquaresSorted]
  have hkey := mem_foldr_append
    (fun cn : Nat => (List.range 12).map (fun rn : Nat => ((cn : Int), (rn : Int))))
    (List.range 11) (c, r)
  constructor
  · intro h
    obtain ⟨cn, hcn, h2⟩ := hkey.mp h
    obtain ⟨rn, hrn, heq⟩ := List.mem_map.mp h2
    rw [List.mem_range] at hcn hrn
    have hc : ((cn : Int), (rn : Int)).1 = c := congrArg Prod.fst heq
    have hr : ((cn : Int), (rn : Int)).2 = r := congrArg Prod.snd heq
    simp at hc hr
    simp [onBoard]
    omega
  · intro h
    simp only [onBoard, decide_eq_true_eq] at h
    apply hkey.mpr
    refine ⟨c.toNat, by rw [List.mem_range]; omega, ?_⟩
    apply List.mem_map.mpr
    refine ⟨r.toNat, by rw [List.mem_range]; omega, ?_⟩
    have hc : ((c.toNat : Int)) = c := Int.toNat_of_nonneg h.1
    have hr : ((r.toNat : Int)) = r := Int.toNat_of_nonneg h.2.2.1
    rw [hc, hr]

lemma mem_getMoves_iff (piece : Piece) (pieces : PieceList) (c r : Int) :
    (c, r) ∈ getMoves piece pieces ↔
      onBoard c r = true ∧ (c, r) ∈ getMoveMask piece pieces := by
  rw [getMoves, List.mem_filter, mem_boardSquaresSorted, contains_iff_mem_pair]

lemma cRay_onBoard (pieces : PieceList) (piece : Piece) (dx dy : Int) :
    ∀ (fuel s : Nat) (c r : Int),
      (c, r) ∈ cRay pieces piece dx dy fuel s → onBoard c r = true := by
  intro fuel
  induction fuel with
  | zero => intro s c r hmem; simp [cRay] at hmem
  | succ n ih =>
    intro s c r hmem
    rw [cRay] at hmem
    by_cases hob : (!onBoard (piece.col + dx * (s : Int)) (piece.row + dy * (s : Int))) = true
    · rw [if_pos hob] at hmem
      simp at hmem
    · rw [if_neg hob] at hmem
      have hb : onBoard (piece.col + dx * (s : Int)) (piece.row + dy * (s : Int)) = true := by
        cases h : onBoard (piece.col + dx * (s : Int)) (piece.row + dy * (s : Int))
        · exact absurd (by simp [h]) hob
        · rfl
      cases hfind : ctxPieceAt pieces (piece.col + dx * (s : Int)) (piece.row + dy * (s : Int)) with
      | some t =>
        simp only [hfind] at hmem
        split_ifs at hmem <;> simp at hmem
        obtain ⟨hc, hr⟩ := hmem; rw [hc, hr]; exact hb
      | none =>
        simp only [hfind] at hmem
        rcases List.mem_cons.mp hmem with heq | htail
        · have hc : c = piece.col + dx * (s : Int) := congrArg Prod.fst heq
          have hr : r = piece.row + dy * (s : Int) := congrArg Prod.snd heq
          rw [hc, hr]; exact hb
        · exact ih (s + 1) c r htail

lemma getMoveMask_c_eq (piece : Piece) (pieces : PieceList) (hk : piece.kind = "C")
    (hob : onBoard piece.col piece.row = true) :
    getMoveMask piece pieces =
      (match ctxCommanderSq pieces (1 - playerIdx piece.player) with
       | none =>
         raysFor ortho4 (fun dx dy =>
           cRay pieces piece dx dy (10 + (if piece.hero then 1 else 0)) 1)
       | some ocr =>
         (raysFor ortho4 (fun dx dy =>
           cRay pieces piece dx dy (10 + (if piece.hero then 1 else 0)) 1)).filter
             (fun sq => cExposed pieces piece ocr.1 ocr.2 sq.1 sq.2)) := by
  rw [getMoveMask, hk, hob]
  simp only [pieceDefRange]
  simp [hqGate_c]
  cases hcs : ctxCommanderSq pieces (1 - playerIdx piece.player) with
  | none => simp
  | some ocr => simp

def c2C : Piece := ⟨0, "red", "C", 0, 0, false, -1⟩

def c2Board : PieceList := [c2C, ⟨1, "blue", "C", 10, 11, false, -1⟩]

/-- Counterexample to C2 as stated: on an otherwise empty board with the
red Commander at (0,0) and the blue Commander at (10,11), the adjacent
square (1,0) is an unobstructed rook-slide destination that is on neither
the enemy Commander's file nor rank — and it is **not** in the generated
move set (the face-to-face rule filters it out). -/
theorem commander_face_filter_counterexample :
    ((1, 0) ∈ cRay c2Board c2C 1 0 10 1) ∧
    ctxPieceAt c2Board 1 0 = none ∧
    ((1 : Int) ≠ 10 ∧ (0 : Int) ≠ 11) ∧
    ctxCommanderSq c2Board 1 = some (10, 11) ∧
    ((1, 0) ∉ getMoves c2C c2Board) := by decide

/-- C2 (amended): the face-to-face rule is a filter, not an addition. A
Commander's generated destinations are exactly the rook-slide squares
(range 10, +1 when heroic, captures at step 1 only) that additionally lie
on the enemy Commander's file or rank with no piece strictly between
(ignoring the moving Commander itself); with no enemy Commander on the
board the plain rook-slide set remains. -/
theorem commander_moves_amended (piece : Piece) (pieces : PieceList)
    (hk : piece.kind = "C") (c r : Int) :
    (c, r) ∈ getMoves piece pieces ↔
      (onBoard piece.col piece.row = true ∧
       (c, r) ∈ raysFor ortho4 (fun dx dy =>
         cRay pieces piece dx dy (10 + (if piece.hero then 1 else 0)) 1) ∧
       (match ctxCommanderSq pieces (1 - playerIdx piece.player) with
        | none => True
        | some ocr => cExposed pieces piece ocr.1 ocr.2 c r = true)) := by
  have hray_ob : ∀ (c r : Int),
      (c, r) ∈ raysFor ortho4 (fun dx dy =>
        cRay pieces piece dx dy (10 + (if piece.hero then 1 else 0)) 1) →
      onBoard c r = true := by
    intro c r hm
    rw [raysFor] at hm
    obtain ⟨d, -, h⟩ := (mem_foldr_append _ _ _).mp hm
    exact cRay_onBoard pieces piece d.1 d.2 _ 1 c r h
  rw [mem_getMoves_iff]
  by_cases hob : onBoard piece.col piece.row = true
  · rw [getMoveMask_c_eq piece pieces hk hob]
    cases hcs : ctxCommanderSq pieces (1 - playerIdx piece.player) with
    | none =>
      constructor
      · rintro ⟨-, hmem⟩
        exact ⟨hob, hmem, trivial⟩
      · rintro ⟨-, hmem, -⟩
        exact ⟨hray_ob c r hmem, hmem⟩
    | some ocr =>
      constructor
      · rintro ⟨-, hmem⟩
        obtain ⟨hmem2, hexp⟩ := List.mem_filter.mp hmem
        exact ⟨hob, hmem2, hexp⟩
      · rintro ⟨-, hmem, hexp⟩
        exact ⟨hray_ob c r hmem, List.mem_filter.mpr ⟨hmem, hexp⟩⟩
  · have hmask : getMoveMask piece pieces = [] := by
      rw [getMoveMask]
      have : onBoard piece.col piece.row = false := by
        cases h : onBoard piece.col piece.row
        · rfl
        · exact absurd h hob
      rw [this]
      simp
    rw [hmask]
    simp
    intro h
    exact absurd h hob

/-- Witness for C2 (amended): the aligned-and-clear square (10,0) is a
generated Commander destination on the counterexample board. -/
theorem commander_moves_amended_witness :
    ((10, 0) ∈ getMoves c2C c2Board) := by
  refine (commander_moves_amended c2C c2Board rfl 10 0).mpr ⟨by decide, by decide, ?_⟩
  have hcs : ctxCommanderSq c2Board (1 - playerIdx c2C.player) = some (10, 11) := by decide
  rw [hcs]
  show cExposed c2Board c2C 10 11 10 0 = true
  decide

end CommanderChess

namespace CommanderChess

/-! Claim C3: move generation for carried pieces. -/

def c3Carried : Piece := ⟨1, "red", "In", 5, 5, false, 0⟩

def c3Board : PieceList := [⟨0, "red", "T", 5, 5, false, -1⟩, c3Carried]

/-- Counterexample to C3 as stated: an Infantry carried by a Tank (its
`carrier_id` is set) still generates a non-empty move set from its
carrier's square, and the all-moves enumeration for its side contains one
of its moves. -/
theorem carried_piece_moves_counterexample :
    (0 ≤ c3Carried.carrierId) ∧
    getMoves c3Carried c3Board ≠ [] ∧
    (MoveTriple.mk 1 5 6) ∈ allMovesFor c3Board "red" := by decide

/-- C3 (amended): `get_move_mask_bitboard` has no carried-piece guard, so a
carried piece's moves are generated exactly as if it stood (uncarried) on
its carrier's square, and `all_moves_for` enumerates the full generated
move list of **every** piece of the side, carried pieces included. -/
theorem all_moves_for_characterization (pieces : PieceList) (player : String)
    (t : MoveTriple) :
    t ∈ allMovesFor pieces player ↔
      ∃ p ∈ pieces, p.player = player ∧ p.id = t.pid ∧ (t.dc, t.dr) ∈ getMoves p pieces := by
  rw [allMovesFor]
  have hkey := mem_foldr_append
    (fun p : Piece => if p.player == player then
        (getMoves p pieces).map (fun m => MoveTriple.mk p.id m.1 m.2) else []) pieces t
  rw [hkey]
  constructor
  · rintro ⟨p, hp, hbody⟩
    by_cases hpl : (p.player == player) = true
    · rw [if_pos hpl] at hbody
      obtain ⟨m, hm, heq⟩ := List.mem_map.mp hbody
      have h1 : p.id = t.pid := congrArg MoveTriple.pid heq
      have h2 : m.1 = t.dc := congrArg MoveTriple.dc heq
      have h3 : m.2 = t.dr := congrArg MoveTriple.dr heq
      refine ⟨p, hp, by simpa using hpl, h1, ?_⟩
      rw [← h2, ← h3]
      simpa using hm
    · rw [if_neg hpl] at hbody
      simp at hbody
  · rintro ⟨p, hp, hpl, hpid, hmem⟩
    refine ⟨p, hp, ?_⟩
    rw [if_pos (by simpa using hpl)]
    apply List.mem_map.mpr
    refine ⟨(t.dc, t.dr), hmem, ?_⟩
    cases t with
    | mk a b c => simpa using hpid

end CommanderChess

namespace CommanderChess

/-! Claim C4: Navy/Tank stay-and-fire. Supporting lemmas: heroic promotion
rewrites only hero flags, captured-subtree ids stay on the captured side,
and `find?` by id survives the removal filter. -/

/-- Two pieces agreeing on every field except possibly `hero`. -/
def agreesExceptHero (a b : Piece) : Prop :=
  a.id = b.id ∧ a.player = b.player ∧ a.kind = b.kind ∧ a.col = b.col ∧
  a.row = b.row ∧ a.carrierId = b.carrierId

/-- Pointwise `agreesExceptHero` between two piece lists. -/
def listAgreesExceptHero (l l' : PieceList) : Prop :=
  l.length = l'.length ∧
  ∀ (i : Nat) (h1 : i < l.length) (h2 : i < l'.length), agreesExceptHero (l.get ⟨i, h1⟩) (l'.get ⟨i, h2⟩)

lemma agreesExceptHero_refl (a : Piece) : agreesExceptHero a a :=
  ⟨rfl, rfl, rfl, rfl, rfl, rfl⟩

lemma agreesExceptHero_trans {a b c : Piece}
    (h1 : agreesExceptHero a b) (h2 : agreesExceptHero b c) : agreesExceptHero a c := by
  obtain ⟨x1, x2, x3, x4, x5, x6⟩ := h1
  obtain ⟨y1, y2, y3, y4, y5, y6⟩ := h2
  exact ⟨x1.trans y1, x2.trans y2, x3.trans y3, x4.trans y4, x5.trans y5, x6.trans y6⟩

lemma listAgrees_refl (l : PieceList) : listAgreesExceptHero l l :=
  ⟨rfl, fun _ _ _ => agreesExceptHero_refl _⟩

lemma listAgrees_trans {l1 l2 l3 : PieceList}
    (h1 : listAgreesExceptHero l1 l2) (h2 : listAgreesExceptHero l2 l3) :
    listAgreesExceptHero l1 l3 := by
  obtain ⟨hl1, hp1⟩ := h1
  obtain ⟨hl2, hp2⟩ := h2
  refine ⟨hl1.trans hl2, fun i ha hb => ?_⟩
  have hm : i < l2.length := hl1 ▸ ha
  exact agreesExceptHero_trans (hp1 i ha hm) (hp2 i hm hb)

lemma set_hero_agrees (l : PieceList) (i : Nat) (p : Piece) (hp : l[i]? = some p) :
    listAgreesExceptHero (l.set i { p with hero := true }) l := by
  have hi : i < l.length := by
    by_contra hge
    rw [List.getElem?_eq_none (by omega)] at hp
    exact Option.noConfusion hp
  refine ⟨List.length_set .., fun j h1 h2 => ?_⟩
  rw [List.get_eq_getElem, List.get_eq_getElem, List.getElem_set]
  by_cases hij : i = j
  · rw [if_pos hij]
    subst hij
    have : l[i] = p := by
      rw [List.getElem?_eq_getElem hi] at hp
      exact Option.some.inj hp
    rw [this]
    exact ⟨rfl, rfl, rfl, rfl, rfl, rfl⟩
  · rw [if_neg hij]
    exact agreesExceptHero_refl _

lemma promoteCheckScan_agrees (n : Nat) :
    ∀ (l : PieceList) (i : Nat) (ch : Bool),
      listAgreesExceptHero (promoteCheckScan l n i ch).1 l := by
  induction n with
  | zero => intro l i ch; exact listAgrees_refl l
  | succ m ih =>
    intro l i ch
    rw [promoteCheckScan]
    cases hp : l[i]? with
    | none => exact listAgrees_refl l
    | some p =>
      dsimp only
      by_cases hh : (p.hero || !onBoard p.col p.row) = true
      · rw [if_pos hh]
        exact ih l (i + 1) ch
      · rw [if_neg hh]
        cases hc : l.find? (fun q => q.player == opp p.player && q.kind == "C") with
        | none => exact ih l (i + 1) ch
        | some enemyCmd =>
          dsimp only
          by_cases hmv : ((getMoves p l).any
              (fun m => m.1 == enemyCmd.col && m.2 == enemyCmd.row)) = true
          · rw [if_pos hmv]
            exact listAgrees_trans (ih _ (i + 1) true) (set_hero_agrees l i p hp)
          · rw [if_neg hmv]
            exact ih l (i + 1) ch

lemma lastProtector_agrees (l : PieceList) (side : String) :
    listAgreesExceptHero (lastProtector l side).1 l := by
  rw [lastProtector]
  cases hidx : eligibleIdxs l side with
  | nil => exact listAgrees_refl l
  | cons i rest =>
    cases rest with
    | cons _ _ => exact listAgrees_refl l
    | nil =>
      dsimp only
      cases hp : l[i]? with
      | none => exact listAgrees_refl l
      | some p =>
        dsimp only
        by_cases hh : p.hero = true
        · simp only [hh]
          simp
          exact listAgrees_refl l
        · have hh' : (!p.hero) = true := by simp [hh]
          simp only [hh']
          simp
          exact set_hero_agrees l i p hp

lemma promotePass_agrees (l : PieceList) : listAgreesExceptHero (promotePass l).1 l := by
  rw [promotePass]
  exact listAgrees_trans (lastProtector_agrees _ "blue")
    (listAgrees_trans (lastProtector_agrees _ "red") (promoteCheckScan_agrees _ l 0 false))

lemma promoteHeroesGo_agrees (fuel : Nat) :
    ∀ (l : PieceList), listAgreesExceptHero (promoteHeroesGo fuel l) l := by
  induction fuel with
  | zero => intro l; exact listAgrees_refl l
  | succ n ih =>
    intro l
    rw [promoteHeroesGo]
    by_cases hch : (promotePass l).2 = true
    · rw [if_pos hch]
      exact listAgrees_trans (ih _) (promotePass_agrees l)
    · rw [if_neg hch]
      exact promotePass_agrees l

lemma promoteHeroes_agrees (l : PieceList) :
    listAgreesExceptHero (promoteHeroesFromChecks l) l :=
  promoteHeroesGo_agrees _ l

end CommanderChess

namespace CommanderChess

lemma contains_iff_mem_int (l : List Int) (x : Int) : l.contains x = true ↔ x ∈ l := by
  simp [List.contains]

/-- On a board whose carrier links never cross sides, every id collected
below a piece of side `side` names only pieces of that side. -/
lemma collectCarriedIds_player (pieces : PieceList) (side : String)
    (hlinks : ∀ p ∈ pieces, ∀ cp ∈ pieces, cp.id = p.carrierId → cp.player = p.player) :
    ∀ (fuel : Nat) (cid : Int) (acc : List Int),
      (∃ w ∈ pieces, w.id = cid ∧ w.player = side) →
      (∀ j ∈ acc, ∃ w ∈ pieces, w.id = j ∧ w.player = side) →
      ∀ i ∈ collectCarriedIds pieces fuel cid acc,
        ∃ w ∈ pieces, w.id = i ∧ w.player = side := by
  intro fuel
  induction fuel with
  | zero => intro cid acc _ hacc i hi; exact hacc i hi
  | succ n ih =>
    intro cid acc hcid hacc
    rw [collectCarriedIds]
    have aux : ∀ (l : List Piece), (∀ p ∈ l, p ∈ pieces) →
        ∀ (acc' : List Int), (∀ j ∈ acc', ∃ w ∈ pieces, w.id = j ∧ w.player = side) →
        ∀ i ∈ l.foldl
          (fun acc p =>
            if p.carrierId == cid then
              if acc.contains p.id then acc
              else collectCarriedIds pieces n p.id (acc ++ [p.id])
            else acc) acc',
          ∃ w ∈ pieces, w.id = i ∧ w.player = side := by
      intro l
      induction l with
      | nil => intro _ acc' hacc' i hi; exact hacc' i hi
      | cons p t iht =>
        intro hl acc' hacc' i hi
        rw [List.foldl_cons] at hi
        have hpmem : p ∈ pieces := hl p (List.mem_cons_self p t)
        have htsub : ∀ q ∈ t, q ∈ pieces := fun q hq => hl q (List.mem_cons_of_mem p hq)
        by_cases hcar : (p.carrierId == cid) = true
        · rw [if_pos hcar] at hi
          by_cases hcon : acc'.contains p.id = true
          · rw [if_pos hcon] at hi
            exact iht htsub acc' hacc' i hi
          · rw [if_neg hcon] at hi
            have hpside : p.player = side := by
              obtain ⟨w, hw, hwid, hwside⟩ := hcid
              have := hlinks p hpmem w hw (by rw [hwid]; exact (beq_iff_eq.mp hcar).symm)
              rw [← this]; exact hwside
            have hacc2 : ∀ j ∈ acc' ++ [p.id], ∃ w ∈ pieces, w.id = j ∧ w.player = side := by
              intro j hj
              rcases List.mem_append.mp hj with hj1 | hj2
              · exact hacc' j hj1
              · have : j = p.id := by simpa using hj2
                exact ⟨p, hpmem, this.symm, hpside⟩
            have hrec := ih p.id (acc' ++ [p.id]) ⟨p, hpmem, rfl, hpside⟩ hacc2
            exact iht htsub _ (fun j hj => hrec j hj) i hi
        · rw [if_neg hcar] at hi
          exact iht htsub acc' hacc' i hi
    exact aux pieces (fun p hp => hp) acc hacc

/-- Finding a piece by id is stable under removing pieces the find target
survives. -/
lemma find_id_filter (pid : Int) (piece : Piece) (keep : Piece → Bool) :
    ∀ (pieces : PieceList),
      pieces.find? (fun p => p.id == pid) = some piece → keep piece = true →
      (pieces.filter keep).find? (fun p => p.id == pid) = some piece := by
  intro pieces
  induction pieces with
  | nil => intro h _; simp at h
  | cons a t ih =>
    intro hfind hkeep
    by_cases hap : (a.id == pid) = true
    · rw [List.find?_cons_of_pos (p := fun q : Piece => q.id == pid) _ hap] at hfind
      have ha : a = piece := Option.some.inj hfind
      subst ha
      rw [List.filter_cons, if_pos hkeep]
      exact List.find?_cons_of_pos (p := fun q : Piece => q.id == pid) _ hap
    · rw [List.find?_cons_of_neg (p := fun q : Piece => q.id == pid) _ hap] at hfind
      rw [List.filter_cons]
      by_cases hk : keep a = true
      · rw [if_pos hk]
        rw [List.find?_cons_of_neg (p := fun q : Piece => q.id == pid) _ hap]
        exact ih hfind hkeep
      · rw [if_neg hk]
        exact ih hfind hkeep

end CommanderChess

namespace CommanderChess

/-- Reduction of `apply_move_impl` along the stay-and-fire capture path: an
uncarried Navy firing at a non-navigable square, or Tank firing at a sea
square, yields the capture-removal result followed by heroic promotion —
with no relocation of the mover. -/
lemma applyMove_stay_fire_eq (pieces : PieceList) (pid dc dr : Int) (player : String)
    (piece target : Piece)
    (hfind : pieceById pieces pid = some piece)
    (hside : piece.player = player)
    (hunc : piece.carrierId < 0)
    (htgt : pieceAt pieces dc dr = some target)
    (henemy : target.player ≠ player)
    (hob : onBoard dc dr = true)
    (hterr : (piece.kind = "N" ∧ isNavigable dc dr = false) ∨
             (piece.kind = "T" ∧ isSea dc dr = true))
    (hfind2 : pieceById (removePieceWithCarried pieces target.id) pid = some piece) :
    applyMoveImpl pieces pid dc dr player =
      promoteHeroesFromChecks (removePieceWithCarried pieces target.id) := by
  have h1 : (piece.player != player) = false := by rw [hside]; exact bne_self_eq_false _
  have hcar : decide (0 ≤ piece.carrierId) = false := by
    simp [decide_eq_false_iff_not]; omega
  have htb : (target.player == player) = false := by
    simp [beq_eq_false_iff_ne]; exact henemy
  have hns : ((piece.kind == "N" && !isNavigable dc dr) ||
      (piece.kind == "T" && isSea dc dr)) = true := by
    rcases hterr with ⟨hk, hn⟩ | ⟨hk, hs⟩
    · rw [hk, hn]; simp
    · rw [hk, hs]; simp
  have hAf : (piece.kind == "Af") = false := by
    rcases hterr with ⟨hk, -⟩ | ⟨hk, -⟩ <;> rw [hk] <;> decide
  rw [applyMoveImpl, hfind]
  dsimp only
  rw [h1]
  simp only [Bool.false_eq_true, if_false, hob, Bool.not_true, hcar]
  rw [htgt]
  dsimp only
  rw [htb]
  simp only [Bool.false_eq_true, if_false]
  rw [hfind2]
  dsimp only
  rw [hAf]
  simp only [Bool.false_and, Bool.false_eq_true, if_false]
  rw [hns]
  simp only [Bool.not_true, Bool.false_eq_true, if_false]

def e2State : GameState :=
  { pieces := [⟨0, "red", "N", 1, 1, false, -1⟩, ⟨1, "blue", "In", 4, 1, false, -1⟩,
               ⟨2, "red", "C", 6, 0, false, -1⟩, ⟨3, "blue", "C", 6, 11, false, -1⟩],
    current := "red", positionHistory := [], gameOver := false, result := "",
    hasLastMove := false, lastMove := ⟨-1, -1, -1⟩, lastMoveCapture := false,
    lastMovePlayer := "red", gameMode := GameMode.fullBattle }

/-- C4: a legal stay-and-fire capture — Navy at a non-navigable target
square or Tank at a sea target square — removes the captured piece together
with every transitively carried descendant, and the capturing piece keeps
its origin square and kind. The board is assumed well-formed in the two
respects the removal walk relies on: ids are unique and carrier links join
same-side pieces (§3.3 invariants 1 and 3). Concretely, in the E2 scenario
the blue Infantry is gone, the red Navy is still at (1,1), and the side to
move becomes blue. -/
theorem navy_tank_stay_and_fire :
    (∀ (pieces : PieceList) (pid dc dr : Int) (player : String) (piece target : Piece),
      pieceById pieces pid = some piece →
      piece.player = player →
      piece.carrierId < 0 →
      pieceAt pieces dc dr = some target →
      target.player ≠ player →
      onBoard dc dr = true →
      ((piece.kind = "N" ∧ isNavigable dc dr = false) ∨
       (piece.kind = "T" ∧ isSea dc dr = true)) →
      (∀ p ∈ pieces, ∀ q ∈ pieces, p.id = q.id → p = q) →
      (∀ p ∈ pieces, ∀ cp ∈ pieces, cp.id = p.carrierId → cp.player = p.player) →
      ((∀ q ∈ applyMoveImpl pieces pid dc dr player,
          q.id ∉ collectCarriedIds pieces pieces.length target.id [target.id]) ∧
       (∃ q ∈ applyMoveImpl pieces pid dc dr player,
          q.id = pid ∧ q.col = piece.col ∧ q.row = piece.row ∧ q.kind = piece.kind))) ∧
    ((4, 1) ∈ getMoves ⟨0, "red", "N", 1, 1, false, -1⟩ e2State.pieces ∧
     (backendApplyMove e2State ⟨0, 4, 1⟩).2.pieces.all (fun q => q.id != 1) = true ∧
     (backendApplyMove e2State ⟨0, 4, 1⟩).2.pieces.any
       (fun q => q.id == 0 && q.kind == "N" && q.col == 1 && q.row == 1) = true ∧
     (backendApplyMove e2State ⟨0, 4, 1⟩).2.current = "blue" ∧
     (backendApplyMove e2State ⟨0, 4, 1⟩).1.ok = true) := by
  constructor
  · intro pieces pid dc dr player piece target hfind hside hunc htgt henemy hob hterr hidsU hlinks
    have hfindr : pieces.find? (fun p => p.id == pid) = some piece := hfind
    have hbq : (piece.id == pid) = true :=
      List.find?_some (p := fun q : Piece => q.id == pid) hfindr
    have hpid : piece.id = pid := beq_iff_eq.mp hbq
    have hpmem : piece ∈ pieces := List.mem_of_find?_eq_some hfindr
    have htmem : target ∈ pieces := List.mem_of_find?_eq_some htgt
    have hids_side : ∀ i ∈ collectCarriedIds pieces pieces.length target.id [target.id],
        ∃ w ∈ pieces, w.id = i ∧ w.player = target.player := by
      refine collectCarriedIds_player pieces target.player hlinks pieces.length target.id
        [target.id] ⟨target, htmem, rfl, rfl⟩ ?_
      intro j hj
      have : j = target.id := by simpa using hj
      exact ⟨target, htmem, this.symm, rfl⟩
    have hpid_not : pid ∉ collectCarriedIds pieces pieces.length target.id [target.id] := by
      intro hin
      obtain ⟨w, hw, hwid, hwpl⟩ := hids_side pid hin
      have hwp : w = piece := hidsU w hw piece hpmem (hwid.trans hpid.symm)
      rw [hwp] at hwpl
      exact henemy (hwpl.symm.trans hside)
    have hkeep : (!((collectCarriedIds pieces pieces.length target.id
        [target.id]).contains piece.id)) = true := by
      cases hcon : (collectCarriedIds pieces pieces.length target.id [target.id]).contains piece.id
      · rfl
      · exact absurd (hpid ▸ (contains_iff_mem_int _ _).mp hcon) hpid_not
    have hfind2 : pieceById (removePieceWithCarried pieces target.id) pid = some piece :=
      find_id_filter pid piece _ pieces hfindr hkeep
    have happly := applyMove_stay_fire_eq pieces pid dc dr player piece target hfind hside
      hunc htgt henemy hob hterr hfind2
    rw [happly]
    obtain ⟨hlen, hpt⟩ := promoteHeroes_agrees (removePieceWithCarried pieces target.id)
    constructor
    · intro q hq hin
      obtain ⟨⟨i, hi⟩, hqi⟩ := List.mem_iff_get.mp hq
      have hagree := hpt i hi (hlen ▸ hi)
      have helt : (removePieceWithCarried pieces target.id).get ⟨i, hlen ▸ hi⟩ ∈
          removePieceWithCarried pieces target.id := List.get_mem _ _ _
      have hkeep2 := (List.mem_filter.mp helt).2
      have hqid : q.id = ((removePieceWithCarried pieces target.id).get ⟨i, hlen ▸ hi⟩).id := by
        rw [← hqi]; exact hagree.1
      rw [hqid] at hin
      rw [Bool.not_eq_true'] at hkeep2
      rw [← contains_iff_mem_int] at hin
      rw [hkeep2] at hin
      exact Bool.noConfusion hin
    · have hp2mem : piece ∈ removePieceWithCarried pieces target.id :=
        List.mem_of_find?_eq_some hfind2
      obtain ⟨⟨i, hi⟩, hpi⟩ := List.mem_iff_get.mp hp2mem
      refine ⟨(promoteHeroesFromChecks (removePieceWithCarried pieces target.id)).get
        ⟨i, hlen ▸ hi⟩, List.get_mem _ _ _, ?_⟩
      have hagree := hpt i (hlen ▸ hi) hi
      rw [hpi] at hagree
      exact ⟨hagree.1.trans hpid, hagree.2.2.2.1, hagree.2.2.2.2.1, hagree.2.2.1⟩
  · exact ⟨by decide, by decide, by decide, by decide, by decide⟩

end CommanderChess

namespace CommanderChess

/-- Witness for C4: the E2 board instantiates the stay-and-fire theorem —
the red Navy is still on (1,1) after capturing at (4,1), and the captured
Infantry's id is gone. -/
theorem navy_tank_stay_and_fire_witness :
    (∀ q ∈ applyMoveImpl e2State.pieces 0 4 1 "red",
       q.id ∉ collectCarriedIds e2State.pieces e2State.pieces.length 1 [1]) ∧
    (∃ q ∈ applyMoveImpl e2State.pieces 0 4 1 "red",
       q.id = 0 ∧ q.col = 1 ∧ q.row = 1 ∧ q.kind = "N") := by
  have h := navy_tank_stay_and_fire.1 e2State.pieces 0 4 1 "red"
    ⟨0, "red", "N", 1, 1, false, -1⟩ ⟨1, "blue", "In", 4, 1, false, -1⟩
    (by decide) rfl (by decide) (by decide) (by decide) (by decide)
    (Or.inl ⟨rfl, by decide⟩) (by decide) (by decide)
  exact ⟨h.1, h.2⟩

end CommanderChess

namespace CommanderChess

/-! Claim C1: invariant preservation under apply. The code violates
invariant 5 (exactly one Commander per side unless terminal): a non-hero
Air Force carrying its own Commander may legally capture into an enemy
anti-air ring; the kamikaze removal then destroys the carried Commander,
leaving the mover's side without a Commander in a position `check_win`
does not recognise as terminal — exactly the state
`validate_state_for_sim` rejects as "invalid commander count". -/

def c1Board : PieceList :=
  [⟨0, "red", "Af", 4, 4, false, -1⟩, ⟨1, "red", "C", 4, 4, false, 0⟩,
   ⟨2, "blue", "In", 4, 5, false, -1⟩, ⟨3, "blue", "Aa", 4, 6, false, -1⟩,
   ⟨4, "blue", "C", 6, 11, false, -1⟩]

/-- C1 (code bug, witnessed): `c1Board` passes the engine's own state
validator (unique ids, one Commander per side, legal stacking), the
uncarried red Air Force at (4,4) has the capture (4,5) in its generated
move set, yet after `apply_move_impl` the red side has no Commander while
`check_win` still reports no winner — the applied move breaks invariant 5
and the post-state fails `validate_state_for_sim`. -/
theorem kamikaze_breaks_commander_invariant :
    validateStateForSim GameMode.fullBattle c1Board "blue" = true ∧
    validateState c1Board = true ∧
    (c1Board.filter (fun p => p.kind == "C" && p.player == "red")).length = 1 ∧
    (c1Board.filter (fun p => p.kind == "C" && p.player == "blue")).length = 1 ∧
    (0 ≤ (4 : Int) ∧ ¬ 0 ≤ (-1 : Int)) ∧
    ((4, 5) ∈ getMoves ⟨0, "red", "Af", 4, 4, false, -1⟩ c1Board) ∧
    ((applyMoveImpl c1Board 0 4 5 "red").filter
        (fun p => p.kind == "C" && p.player == "red")).length = 0 ∧
    ((applyMoveImpl c1Board 0 4 5 "red").filter
        (fun p => p.kind == "C" && p.player == "blue")).length = 1 ∧
    checkWin GameMode.fullBattle (applyMoveImpl c1Board 0 4 5 "red") "red" = "" ∧
    validateStateForSim GameMode.fullBattle (applyMoveImpl c1Board 0 4 5 "red") "red" = false := by
  refine ⟨by decide, by decide, by decide, by decide, by decide, by decide, ?_, ?_, ?_, ?_⟩
  · decide
  · decide
  · decide
  · decide

end CommanderChess
